import Mathlib

/-!
Shallow embedding of the TZX tape engine from `rustzx-core/src/zx/tape/tzx.rs`.

Bytes are modelled as `Nat`, the seekable byte source as a list with a cursor,
Rust `Result`/panics as an explicit error type, and the unbounded
`'state_machine` loop of `process_clocks` with explicit fuel (`outOfFuel`
stands for a loop iteration budget that ran out, i.e. non-termination).
Unsigned subtractions that can go below zero and out-of-range slicing are
modelled as `rustPanic`, matching the overflow checks of the source language.
-/

namespace TzxSpec

deriving instance DecidableEq for Except

/-- Errors: the two structured tape errors of the source, an I/O failure of the
byte source (Rust `Err` from `read_exact`/`seek`), a runtime panic (integer
underflow, out-of-range slice, failed `unwrap`), and fuel exhaustion of the
modelled loop. -/
inductive TzxError
  | invalidTapFile
  | invalidTzxFile
  | ioError
  | rustPanic
  | outOfFuel
deriving DecidableEq, Repr

/-- The seekable byte source (`LoadableAsset + SeekableAsset`): an immutable
byte list together with the read cursor. -/
structure Asset where
  data : List Nat
  pos : Nat
deriving DecidableEq, Repr

/-- Model of `read_exact` for an `n`-byte buffer: returns the `n` bytes at the
cursor and advances it, or fails (`none`) when fewer than `n` bytes remain. -/
def Asset.read_exact (a : Asset) (n : Nat) : Option (List Nat × Asset) :=
  if a.pos + n ≤ a.data.length then
    some ((a.data.drop a.pos).take n, { a with pos := a.pos + n })
  else
    none

/-- Model of `seek(SeekFrom::Start(p))`: repositions the cursor, returns it. -/
def Asset.seek_start (a : Asset) (p : Nat) : Nat × Asset :=
  (p, { a with pos := p })

/-- Model of `seek(SeekFrom::Current(k))` for the nonnegative offsets the
engine uses: advances the cursor, returns the new position. -/
def Asset.seek_current (a : Asset) (k : Nat) : Nat × Asset :=
  (a.pos + k, { a with pos := a.pos + k })

/-- `TapeState` of the source, with the same variants and payloads. -/
inductive TapeState
  | Init
  | Stop
  | Play
  | Process
  | Pilot (pulses_left : Nat)
  | PureTone (pulses_left : Nat)
  | PulseSequence (pulses_left : Nat)
  | Sync
  | NextByte (is_direct_recording_sample : Bool)
  | NextBit (mask : Nat)
  | NextDirectRecordingBit (mask : Nat)
  | BitHalf (half_bit_delay : Nat) (mask : Nat)
  | Pause
  | Silence (length : Nat)
deriving DecidableEq, Repr

/-- `TzxBlockId` of the source (the variants the engine can actually store). -/
inductive TzxBlockId
  | Unknown
  | StandardSpeedData
  | TurboSpeedData
  | PureTone
  | PulseSequence
  | PureDataBlock
  | DirectRecording
  | PauseOrSilence
  | GroupStart
  | GroupEnd
  | LoopStart
  | LoopEnd
  | SelectBlock
  | StopIf48k
  | TextDescription
  | ArchiveInfo
deriving DecidableEq, Repr

def STD_PILOT_LENGTH : Nat := 2168
def STD_PILOT_PULSES_HEADER : Nat := 8063
def STD_PILOT_PULSES_DATA : Nat := 3223
def STD_SYNC1_LENGTH : Nat := 667
def STD_SYNC2_LENGTH : Nat := 735
def STD_BIT_ONE_LENGTH : Nat := 1710
def STD_BIT_ZERO_LENGTH : Nat := 855
def STD_PAUSE_LENGTH : Nat := 3500000
def BUFFER_SIZE : Nat := 128

/-- `TapeTimings` of the source. -/
structure TapeTimings where
  pilot_length : Nat
  sync1_length : Nat
  sync2_length : Nat
  bit_0_length : Nat
  bit_1_length : Nat
  pilot_pulses_header : Nat
  pilot_pulses_data : Nat
  pause_length : Nat
  pilot_tone_length : Option Nat
deriving DecidableEq, Repr

/-- `TapeTimings::default()` of the source. -/
def TapeTimings.default : TapeTimings :=
  { pilot_length := STD_PILOT_LENGTH
    sync1_length := STD_SYNC1_LENGTH
    sync2_length := STD_SYNC2_LENGTH
    bit_0_length := STD_BIT_ZERO_LENGTH
    bit_1_length := STD_BIT_ONE_LENGTH
    pilot_pulses_header := STD_PILOT_PULSES_HEADER
    pilot_pulses_data := STD_PILOT_PULSES_DATA
    pause_length := STD_PAUSE_LENGTH
    pilot_tone_length := none }

/-- The engine struct `Tzx<A>`. -/
structure Tzx where
  asset : Asset
  state : TapeState
  prev_state : TapeState
  buffer : List Nat
  buffer_offset : Nat
  block_bytes_read : Nat
  current_block_id : Option TzxBlockId
  current_block_size : Option Nat
  tape_ended : Bool
  curr_bit : Bool
  curr_byte : Nat
  delay : Int
  tape_timings : TapeTimings
  used_bits_in_last_byte : Nat
  bits_to_process_in_byte : Nat
  loop_start_marker : Nat
  num_repetitions : Option Nat
  is_48k_mode : Bool
deriving DecidableEq, Repr

/-- `Tzx::from_asset` (which always returns `Ok`). -/
def Tzx.from_asset (asset : Asset) (is48k : Bool) : Tzx :=
  { prev_state := TapeState.Stop
    state := TapeState.Init
    curr_bit := false
    curr_byte := 0x00
    buffer := List.replicate BUFFER_SIZE 0
    buffer_offset := 0
    block_bytes_read := 0
    current_block_id := none
    current_block_size := none
    delay := 0
    asset := asset
    tape_ended := false
    tape_timings := TapeTimings.default
    used_bits_in_last_byte := 8
    bits_to_process_in_byte := 0
    loop_start_marker := 0
    num_repetitions := none
    is_48k_mode := is48k }

/-- Little-endian `u16::from_le_bytes`. -/
def le16 (b0 b1 : Nat) : Nat := b0 + 256 * b1

/-- Little-endian `u32::from_le_bytes [b0, b1, b2, 0]` (the 24-bit sizes). -/
def le24 (b0 b1 b2 : Nat) : Nat := b0 + 256 * b1 + 65536 * b2

/-- List indexing with the Rust in-bounds read defaulting to 0 (all actual
reads are in bounds). -/
def listGet (l : List Nat) (i : Nat) : Nat := l.getD i 0

/-- Writing `bytes` into `buffer[0..bytes.length]`, keeping the tail. -/
def writeBuffer (buffer bytes : List Nat) : List Nat :=
  bytes ++ buffer.drop bytes.length

/-- Whether a byte is a UTF-8 continuation byte, for modelling
`core::str::from_utf8` (whose `.unwrap()` panics on invalid input). -/
def utf8Cont (b : Nat) : Bool := 0x80 ≤ b && b ≤ 0xBF

/-- Validity of a byte sequence as UTF-8, following `core::str::from_utf8`. -/
def validUtf8 : List Nat → Bool
  | [] => true
  | b :: rest =>
    if b < 0x80 then validUtf8 rest
    else if b < 0xC2 then false
    else if b ≤ 0xDF then
      match rest with
      | c1 :: r => utf8Cont c1 && validUtf8 r
      | [] => false
    else if b ≤ 0xEF then
      match rest with
      | c1 :: c2 :: r =>
        (if b = 0xE0 then decide (0xA0 ≤ c1 ∧ c1 ≤ 0xBF)
         else if b = 0xED then decide (0x80 ≤ c1 ∧ c1 ≤ 0x9F)
         else utf8Cont c1) && utf8Cont c2 && validUtf8 r
      | _ => false
    else if b ≤ 0xF4 then
      match rest with
      | c1 :: c2 :: c3 :: r =>
        (if b = 0xF0 then decide (0x90 ≤ c1 ∧ c1 ≤ 0xBF)
         else if b = 0xF4 then decide (0x80 ≤ c1 ∧ c1 ≤ 0x8F)
         else utf8Cont c1) && utf8Cont c2 && utf8Cont c3 && validUtf8 r
      | _ => false
    else false

/-- `can_fast_load`. -/
def Tzx.can_fast_load (t : Tzx) : Bool := t.state = TapeState.Stop

/-- `current_bit`. -/
def Tzx.current_bit (t : Tzx) : Bool := t.curr_bit

/-- The tail of `next_block_byte` after the (possible) window refill: the dead
re-check of exhaustion kept from the source, then the actual buffer read,
position advance and `bits_to_process_in_byte` update. `pos` is
`buffer_read_pos`. -/
def Tzx.serve_block_byte (t : Tzx) (block_size pos : Nat) :
    Except TzxError (Option Nat × Tzx) :=
  if block_size ≤ t.block_bytes_read then
    Except.ok (none, { t with current_block_size := none, block_bytes_read := 0 })
  else
    let result := listGet t.buffer pos
    let t1 := { t with block_bytes_read := t.block_bytes_read + 1 }
    let t2 :=
      if block_size ≤ t1.block_bytes_read then
        { t1 with bits_to_process_in_byte := t1.used_bits_in_last_byte }
      else
        { t1 with bits_to_process_in_byte := 8 }
    Except.ok (some result, t2)

/-- `next_block_byte`: the lazy payload byte iterator over the sliding
128-byte window. Unsigned subtractions are modelled with explicit underflow
panics. -/
def Tzx.next_block_byte (t : Tzx) : Except TzxError (Option Nat × Tzx) :=
  if t.tape_ended then Except.ok (none, t)
  else
    match t.current_block_size with
    | none => Except.ok (none, t)
    | some block_size =>
      if block_size ≤ t.block_bytes_read then Except.ok (none, t)
      else if t.block_bytes_read < t.buffer_offset then Except.error TzxError.rustPanic
      else
        let buffer_read_pos := t.block_bytes_read - t.buffer_offset
        if BUFFER_SIZE ≤ buffer_read_pos then
          if block_size < t.buffer_offset + BUFFER_SIZE then Except.error TzxError.rustPanic
          else
            let bytes_to_read := min (block_size - t.buffer_offset - BUFFER_SIZE) BUFFER_SIZE
            match t.asset.read_exact bytes_to_read with
            | none => Except.error TzxError.ioError
            | some (bs, a) =>
              Tzx.serve_block_byte
                { t with
                         asset := a, buffer := writeBuffer t.buffer bs,
                         buffer_offset := t.buffer_offset + BUFFER_SIZE }
                block_size 0
        else
          t.serve_block_byte block_size buffer_read_pos

/-- The 0x10 (StandardSpeedData) arm of `next_block`: reset timings to the
standard values, take the pause and size from the 4-byte header, load up to
`BUFFER_SIZE` payload bytes. The payload `read_exact` uses `?` in the source
and therefore propagates `Err` (`ioError`). -/
def Tzx.next_block_0x10 (t : Tzx) : Except TzxError (Bool × Tzx) :=
  match t.asset.read_exact 4 with
  | none => Except.ok (false, { t with tape_ended := true })
  | some (h, a) =>
    let t := { t with
      asset := a,
      tape_timings := { t.tape_timings with
        pilot_length := STD_PILOT_LENGTH
        sync1_length := STD_SYNC1_LENGTH
        sync2_length := STD_SYNC2_LENGTH
        pilot_pulses_header := STD_PILOT_PULSES_HEADER
        pilot_pulses_data := STD_PILOT_PULSES_DATA
        bit_0_length := STD_BIT_ZERO_LENGTH
        bit_1_length := STD_BIT_ONE_LENGTH
        pause_length := le16 (listGet h 0) (listGet h 1) } }
    let block_size := le16 (listGet h 2) (listGet h 3)
    let block_bytes_to_read := min block_size BUFFER_SIZE
    match t.asset.read_exact block_bytes_to_read with
    | none => Except.error TzxError.ioError
    | some (payload, a2) =>
      Except.ok (true, { t with
        asset := a2,
        buffer := writeBuffer t.buffer payload,
        current_block_id := some TzxBlockId.StandardSpeedData,
        current_block_size := some block_size })

/-- The 0x11 (TurboSpeedData) arm of `next_block`: all timings from the
18-byte header; payload read propagates `Err`. -/
def Tzx.next_block_0x11 (t : Tzx) : Except TzxError (Bool × Tzx) :=
  match t.asset.read_exact 18 with
  | none => Except.ok (false, { t with tape_ended := true })
  | some (h, a) =>
    let t := { t with
      asset := a,
      tape_timings := { t.tape_timings with
        pilot_length := le16 (listGet h 0) (listGet h 1)
        sync1_length := le16 (listGet h 2) (listGet h 3)
        sync2_length := le16 (listGet h 4) (listGet h 5)
        bit_0_length := le16 (listGet h 6) (listGet h 7)
        bit_1_length := le16 (listGet h 8) (listGet h 9)
        pilot_tone_length := some (le16 (listGet h 10) (listGet h 11))
        pause_length := le16 (listGet h 13) (listGet h 14) },
      used_bits_in_last_byte := listGet h 12 }
    let block_size := le24 (listGet h 15) (listGet h 16) (listGet h 17)
    let block_bytes_to_read := min block_size BUFFER_SIZE
    match t.asset.read_exact block_bytes_to_read with
    | none => Except.error TzxError.ioError
    | some (payload, a2) =>
      Except.ok (true, { t with
        asset := a2,
        buffer := writeBuffer t.buffer payload,
        current_block_id := some TzxBlockId.TurboSpeedData,
        current_block_size := some block_size })

/-- The 0x12 (PureTone) arm of `next_block`: pilot width and pulse count from
the 4-byte header; no payload. -/
def Tzx.next_block_0x12 (t : Tzx) : Except TzxError (Bool × Tzx) :=
  match t.asset.read_exact 4 with
  | none => Except.ok (false, { t with tape_ended := true })
  | some (h, a) =>
    Except.ok (true, { t with
      asset := a,
      tape_timings := { t.tape_timings with
        pilot_length := le16 (listGet h 0) (listGet h 1)
        pilot_tone_length := some (le16 (listGet h 2) (listGet h 3)) },
      current_block_id := some TzxBlockId.PureTone })

/-- The 0x13 (PulseSequence) arm of `next_block`: pulse count from the length
byte, payload of `count*2` bytes of pulse widths; payload read propagates
`Err`. -/
def Tzx.next_block_0x13 (t : Tzx) : Except TzxError (Bool × Tzx) :=
  match t.asset.read_exact 1 with
  | none => Except.ok (false, { t with tape_ended := true })
  | some (h, a) =>
    let t := { t with
      asset := a,
      tape_timings := { t.tape_timings with
        pilot_tone_length := some (listGet h 0) } }
    let block_size := listGet h 0 * 2
    let block_bytes_to_read := min block_size BUFFER_SIZE
    match t.asset.read_exact block_bytes_to_read with
    | none => Except.error TzxError.ioError
    | some (payload, a2) =>
      Except.ok (true, { t with
        asset := a2,
        buffer := writeBuffer t.buffer payload,
        current_block_size := some block_size,
        current_block_id := some TzxBlockId.PulseSequence })

/-- The 0x14 (PureDataBlock) arm of `next_block`: bit timings from the 10-byte
header, `pilot_tone_length` cleared; payload read propagates `Err`. -/
def Tzx.next_block_0x14 (t : Tzx) : Except TzxError (Bool × Tzx) :=
  match t.asset.read_exact 10 with
  | none => Except.ok (false, { t with tape_ended := true })
  | some (h, a) =>
    let t := { t with
      asset := a,
      tape_timings := { t.tape_timings with
        bit_0_length := le16 (listGet h 0) (listGet h 1)
        bit_1_length := le16 (listGet h 2) (listGet h 3)
        pilot_tone_length := none
        pause_length := le16 (listGet h 5) (listGet h 6) },
      used_bits_in_last_byte := listGet h 4 }
    let block_size := le24 (listGet h 7) (listGet h 8) (listGet h 9)
    let block_bytes_to_read := min block_size BUFFER_SIZE
    match t.asset.read_exact block_bytes_to_read with
    | none => Except.error TzxError.ioError
    | some (payload, a2) =>
      Except.ok (true, { t with
        asset := a2,
        buffer := writeBuffer t.buffer payload,
        current_block_id := some TzxBlockId.PureDataBlock,
        current_block_size := some block_size })

/-- The 0x15 (DirectRecording) arm of `next_block`: sample rate and pause from
the 8-byte header; here the payload read failure is absorbed (`is_err` in the
source), unlike 0x10/0x11/0x13/0x14. -/
def Tzx.next_block_0x15 (t : Tzx) : Except TzxError (Bool × Tzx) :=
  match t.asset.read_exact 8 with
  | none => Except.ok (false, { t with tape_ended := true })
  | some (h, a) =>
    let t := { t with
      asset := a,
      tape_timings := { t.tape_timings with
        bit_0_length := le16 (listGet h 0) (listGet h 1)
        pause_length := le16 (listGet h 2) (listGet h 3) },
      used_bits_in_last_byte := listGet h 4 }
    let block_size := le24 (listGet h 5) (listGet h 6) (listGet h 7)
    let block_bytes_to_read := min block_size BUFFER_SIZE
    match t.asset.read_exact block_bytes_to_read with
    | none => Except.ok (false, { t with tape_ended := true })
    | some (payload, a2) =>
      Except.ok (true, { t with
        asset := a2,
        buffer := writeBuffer t.buffer payload,
        current_block_id := some TzxBlockId.DirectRecording,
        current_block_size := some block_size })

/-- The 0x16/0x17/0x18/0x19/0x2B (unsupported) arm of `next_block`: skip the
payload with a relative seek. -/
def Tzx.next_block_unsupported (t : Tzx) : Except TzxError (Bool × Tzx) :=
  match t.asset.read_exact 4 with
  | none => Except.ok (false, { t with tape_ended := true })
  | some (h, a) =>
    let block_size := le24 (listGet h 0) (listGet h 1) (listGet h 2) +
      16777216 * listGet h 3
    let (_, a2) := a.seek_current block_size
    Except.ok (true, { t with
      asset := a2,
      current_block_id := some TzxBlockId.Unknown })

/-- The 0x20 (PauseOrSilence) arm of `next_block`: value 0 is an immediate
STOP; otherwise the two value bytes are stashed in the buffer for the
dispatcher. -/
def Tzx.next_block_0x20 (t : Tzx) : Except TzxError (Bool × Tzx) :=
  match t.asset.read_exact 2 with
  | none => Except.ok (false, { t with tape_ended := true })
  | some (h, a) =>
    let val := le16 (listGet h 0) (listGet h 1)
    if val = 0 then
      Except.ok (false, { t with asset := a, delay := 0 })
    else
      Except.ok (true, { t with
        asset := a,
        buffer := writeBuffer t.buffer [listGet h 0, listGet h 1],
        current_block_id := some TzxBlockId.PauseOrSilence })

/-- The 0x21 (GroupStart) arm of `next_block`: the `buffer[0..num_chars]`
slice panics when the length byte exceeds `BUFFER_SIZE`, and the
`from_utf8(..).unwrap()` panics on invalid text. -/
def Tzx.next_block_0x21 (t : Tzx) : Except TzxError (Bool × Tzx) :=
  match t.asset.read_exact 1 with
  | none => Except.ok (false, { t with tape_ended := true })
  | some (h, a) =>
    let num_chars := listGet h 0
    if BUFFER_SIZE < num_chars then Except.error TzxError.rustPanic
    else
      match a.read_exact num_chars with
      | none => Except.ok (false, { t with asset := a, tape_ended := true })
      | some (text, a2) =>
        if validUtf8 text then
          Except.ok (true, { t with
            asset := a2,
            buffer := writeBuffer t.buffer text,
            current_block_id := some TzxBlockId.GroupStart })
        else Except.error TzxError.rustPanic

/-- The 0x24 (LoopStart) arm of `next_block`: record the repetition count and
the loop-start position. Note `current_block_id` is NOT set. -/
def Tzx.next_block_0x24 (t : Tzx) : Except TzxError (Bool × Tzx) :=
  match t.asset.read_exact 2 with
  | none => Except.ok (false, { t with tape_ended := true })
  | some (h, a) =>
    let (marker, a2) := a.seek_current 0
    Except.ok (true, { t with
      asset := a2,
      num_repetitions := some (le16 (listGet h 0) (listGet h 1)),
      loop_start_marker := marker })

/-- The 0x25 (LoopEnd) arm of `next_block`: with repetitions left, decrement
and seek back to the loop-start marker; otherwise clear the counter. -/
def Tzx.next_block_0x25 (t : Tzx) : Except TzxError (Bool × Tzx) :=
  let t := { t with current_block_id := some TzxBlockId.LoopEnd }
  match t.num_repetitions with
  | some num_rep =>
    if 0 < num_rep then
      let (_, a2) := t.asset.seek_start t.loop_start_marker
      Except.ok (true, { t with
        asset := a2,
        num_repetitions := some (num_rep - 1) })
    else
      Except.ok (true, { t with num_repetitions := none })
  | none =>
    Except.ok (true, { t with num_repetitions := none })

/-- The 0x28 (SelectBlock) arm of `next_block`: skip the payload. -/
def Tzx.next_block_0x28 (t : Tzx) : Except TzxError (Bool × Tzx) :=
  match t.asset.read_exact 2 with
  | none => Except.ok (false, { t with tape_ended := true })
  | some (h, a) =>
    let block_size := le16 (listGet h 0) (listGet h 1)
    let (_, a2) := a.seek_current block_size
    Except.ok (true, { t with
      asset := a2,
      current_block_id := some TzxBlockId.Unknown })

/-- The 0x2A (StopIf48k) arm of `next_block`: in 48K mode, STOP (without even
setting `current_block_id`); otherwise record the id and continue. -/
def Tzx.next_block_0x2A (t : Tzx) : Except TzxError (Bool × Tzx) :=
  match t.asset.read_exact 4 with
  | none => Except.ok (false, { t with tape_ended := true })
  | some (_, a) =>
    if t.is_48k_mode then
      Except.ok (false, { t with asset := a })
    else
      Except.ok (true, { t with
        asset := a,
        current_block_id := some TzxBlockId.StopIf48k })

/-- The 0x30 (TextDescription) arm of `next_block`: like 0x21, but it also
sets `current_block_size` to the text length. -/
def Tzx.next_block_0x30 (t : Tzx) : Except TzxError (Bool × Tzx) :=
  match t.asset.read_exact 1 with
  | none => Except.ok (false, { t with tape_ended := true })
  | some (h, a) =>
    let num_chars := listGet h 0
    if BUFFER_SIZE < num_chars then Except.error TzxError.rustPanic
    else
      match a.read_exact num_chars with
      | none => Except.ok (false, { t with asset := a, tape_ended := true })
      | some (text, a2) =>
        if validUtf8 text then
          Except.ok (true, { t with
            asset := a2,
            buffer := writeBuffer t.buffer text,
            current_block_size := some num_chars,
            current_block_id := some TzxBlockId.TextDescription })
        else Except.error TzxError.rustPanic

/-- The 0x32 (ArchiveInfo) arm of `next_block`: skip the payload. -/
def Tzx.next_block_0x32 (t : Tzx) : Except TzxError (Bool × Tzx) :=
  match t.asset.read_exact 2 with
  | none => Except.ok (false, { t with tape_ended := true })
  | some (h, a) =>
    let block_size := le16 (listGet h 0) (listGet h 1)
    let (_, a2) := a.seek_current block_size
    Except.ok (true, { t with
      asset := a2,
      current_block_id := some TzxBlockId.Unknown })

/-- `next_block`: reads one block id byte, zeroes the window bookkeeping, and
dispatches on the id (each arm of the source `match` is the correspondingly
named function above). Deprecated ids 0x34/0x35/0x40 and unknown ids fall
through with `Ok(true)` and no other effect. -/
def Tzx.next_block (t : Tzx) : Except TzxError (Bool × Tzx) :=
  if t.tape_ended then Except.ok (false, t)
  else
    match t.asset.read_exact 1 with
    | none => Except.ok (false, { t with tape_ended := true })
    | some (idb, a0) =>
      let block_id := listGet idb 0
      let t := { t with asset := a0, buffer_offset := 0, block_bytes_read := 0 }
      if block_id = 0x10 then t.next_block_0x10
      else if block_id = 0x11 then t.next_block_0x11
      else if block_id = 0x12 then t.next_block_0x12
      else if block_id = 0x13 then t.next_block_0x13
      else if block_id = 0x14 then t.next_block_0x14
      else if block_id = 0x15 then t.next_block_0x15
      else if block_id = 0x16 ∨ block_id = 0x17 ∨ block_id = 0x18 ∨
              block_id = 0x19 ∨ block_id = 0x2B then t.next_block_unsupported
      else if block_id = 0x34 ∨ block_id = 0x35 ∨ block_id = 0x40 then
        Except.ok (true, t)
      else if block_id = 0x20 then t.next_block_0x20
      else if block_id = 0x21 then t.next_block_0x21
      else if block_id = 0x22 then
        Except.ok (true, { t with current_block_id := some TzxBlockId.GroupEnd })
      else if block_id = 0x24 then t.next_block_0x24
      else if block_id = 0x25 then t.next_block_0x25
      else if block_id = 0x28 then t.next_block_0x28
      else if block_id = 0x2A then t.next_block_0x2A
      else if block_id = 0x30 then t.next_block_0x30
      else if block_id = 0x32 then t.next_block_0x32
      else
        Except.ok (true, t)


/-- The `while self.next_block_byte()?.is_some() {}` drain of the skip arm of
`process_current_block`; fuel bounds the block size. -/
def Tzx.drain_block_bytes : Nat → Tzx → Tzx × Except TzxError Unit
  | 0, t => (t, Except.error TzxError.outOfFuel)
  | fuel + 1, t =>
    match t.next_block_byte with
    | Except.error e => (t, Except.error e)
    | Except.ok (none, t1) => (t1, Except.ok ())
    | Except.ok (some _, t1) => Tzx.drain_block_bytes fuel t1

/-- `process_current_block`: translates the just-loaded block into the initial
pulse-machine state. Returns the possibly mutated engine together with the
Rust `Result` (mutations made before an `Err` are kept, as with `&mut self`). -/
def Tzx.process_current_block (t : Tzx) : Tzx × Except TzxError Unit :=
  match t.current_block_id with
  | none => (t, Except.ok ())
  | some block_id =>
    match block_id with
    | TzxBlockId.StandardSpeedData =>
      match t.next_block_byte with
      | Except.error e => (t, Except.error e)
      | Except.ok (none, t1) => (t1, Except.error TzxError.invalidTzxFile)
      | Except.ok (some first_byte, t1) =>
        let pulses_left :=
          if first_byte = 0x00 then t1.tape_timings.pilot_pulses_header
          else t1.tape_timings.pilot_pulses_data
        ({ t1 with
           curr_byte := first_byte,
           delay := t1.delay + (t1.tape_timings.pilot_length : Int),
           state := TapeState.Pilot pulses_left }, Except.ok ())
    | TzxBlockId.TurboSpeedData =>
      match t.next_block_byte with
      | Except.error e => (t, Except.error e)
      | Except.ok (none, t1) => (t1, Except.error TzxError.invalidTzxFile)
      | Except.ok (some first_byte, t1) =>
        match t1.tape_timings.pilot_tone_length with
        | none => (t1, Except.error TzxError.rustPanic)
        | some pulses_left =>
          ({ t1 with
             curr_byte := first_byte,
             delay := t1.delay + (t1.tape_timings.pilot_length : Int),
             state := TapeState.Pilot pulses_left }, Except.ok ())
    | TzxBlockId.DirectRecording =>
      match t.next_block_byte with
      | Except.error e => (t, Except.error e)
      | Except.ok (none, t1) => (t1, Except.error TzxError.invalidTzxFile)
      | Except.ok (some first_byte, t1) =>
        ({ t1 with
           curr_byte := first_byte, curr_bit := !t1.curr_bit,
           state := TapeState.NextDirectRecordingBit 0x80 }, Except.ok ())
    | TzxBlockId.PureTone =>
      match t.tape_timings.pilot_tone_length with
      | none => (t, Except.error TzxError.rustPanic)
      | some pulses_left =>
        ({ t with
           delay := t.delay + (t.tape_timings.pilot_length : Int),
           state := TapeState.PureTone pulses_left }, Except.ok ())
    | TzxBlockId.PulseSequence =>
      match t.tape_timings.pilot_tone_length with
      | none => (t, Except.error TzxError.rustPanic)
      | some pulses_left =>
        match t.next_block_byte with
        | Except.error e => (t, Except.error e)
        | Except.ok (none, t1) => (t1, Except.error TzxError.invalidTzxFile)
        | Except.ok (some byte1, t1) =>
          match t1.next_block_byte with
          | Except.error e => (t1, Except.error e)
          | Except.ok (none, t2) => (t2, Except.error TzxError.invalidTzxFile)
          | Except.ok (some byte2, t2) =>
            ({ t2 with
               delay := t2.delay + (le16 byte1 byte2 : Int),
               state := TapeState.PulseSequence pulses_left }, Except.ok ())
    | TzxBlockId.PureDataBlock =>
      match t.next_block_byte with
      | Except.error e => (t, Except.error e)
      | Except.ok (none, t1) => (t1, Except.error TzxError.invalidTzxFile)
      | Except.ok (some first_byte, t1) =>
        ({ t1 with
           curr_byte := first_byte, curr_bit := !t1.curr_bit,
           state := TapeState.NextBit 0x80 }, Except.ok ())
    | TzxBlockId.PauseOrSilence =>
      match t.next_block_byte with
      | Except.error e => (t, Except.error e)
      | Except.ok (none, t1) => (t1, Except.error TzxError.invalidTzxFile)
      | Except.ok (some byte1, t1) =>
        match t1.next_block_byte with
        | Except.error e => (t1, Except.error e)
        | Except.ok (none, t2) => (t2, Except.error TzxError.invalidTzxFile)
        | Except.ok (some byte2, t2) =>
          let length := le16 byte1 byte2
          ({ t2 with
             delay := t2.delay + 3500,
             state := TapeState.Silence length }, Except.ok ())
    | TzxBlockId.LoopEnd =>
      ({ t with delay := 0, state := TapeState.Play }, Except.ok ())
    | TzxBlockId.GroupStart =>
      ({ t with delay := 0, state := TapeState.Play }, Except.ok ())
    | TzxBlockId.GroupEnd =>
      ({ t with delay := 0, state := TapeState.Play }, Except.ok ())
    | TzxBlockId.Unknown =>
      ({ t with state := TapeState.Play }, Except.ok ())
    | TzxBlockId.StopIf48k =>
      ({ t with state := TapeState.Play }, Except.ok ())
    | _ =>
      let fuel := (match t.current_block_size with | some n => n + 1 | none => 1)
      match Tzx.drain_block_bytes fuel t with
      | (t1, Except.ok ()) => ({ t1 with state := TapeState.Play }, Except.ok ())
      | (t1, Except.error e) => (t1, Except.error e)

/-- One run of the `'state_machine` loop of `process_clocks`, with fuel.
The returned `Nat` counts the edges of this run: the `curr_bit` toggles
performed (for the `Process` arm, whether the dispatcher flipped the bit).
A panic propagates out of the loop; a Rust `Err` from the dispatcher is
swallowed by the `is_ok` check of the `Process` arm and the loop retries. -/
def Tzx.stepLoop : Nat → Tzx → Except TzxError (Tzx × Nat)
  | 0, _ => Except.error TzxError.outOfFuel
  | fuel + 1, t =>
    match t.state with
    | TapeState.Init =>
      let (_, a) := t.asset.seek_start 0
      match a.read_exact 10 with
      | none => Except.error TzxError.invalidTapFile
      | some (header, a2) =>
        if validUtf8 (header.take 8) then
          Except.ok ({ t with
            asset := a2, state := TapeState.Play,
            buffer_offset := t.buffer_offset + 10 }, 0)
        else Except.error TzxError.rustPanic
    | TapeState.Stop =>
      Except.ok ({ t with state := TapeState.Stop }, 0)
    | TapeState.Play =>
      match t.next_block with
      | Except.error e => Except.error e
      | Except.ok (cont, t1) =>
        Tzx.stepLoop fuel
          { t1 with state := if cont then TapeState.Process else TapeState.Stop }
    | TapeState.Process =>
      match t.process_current_block with
      | (t1, Except.ok ()) =>
        Except.ok (t1, if t1.curr_bit = t.curr_bit then 0 else 1)
      | (_, Except.error TzxError.rustPanic) => Except.error TzxError.rustPanic
      | (_, Except.error TzxError.outOfFuel) => Except.error TzxError.outOfFuel
      | (t1, Except.error _) => Tzx.stepLoop fuel t1
    | TapeState.Pilot pulses_left =>
      let t := { t with curr_bit := !t.curr_bit }
      if pulses_left = 0 then Except.error TzxError.rustPanic
      else
        let pulses_left := pulses_left - 1
        if pulses_left = 0 then
          Except.ok ({ t with
            delay := t.delay + (t.tape_timings.sync1_length : Int),
            state := TapeState.Sync }, 1)
        else
          Except.ok ({ t with
            delay := t.delay + (t.tape_timings.pilot_length : Int),
            state := TapeState.Pilot pulses_left }, 1)
    | TapeState.PureTone pulses_left =>
      let t := { t with curr_bit := !t.curr_bit }
      if pulses_left = 0 then Except.error TzxError.rustPanic
      else
        let pulses_left := pulses_left - 1
        if pulses_left = 0 then
          Except.ok ({ t with state := TapeState.Play }, 1)
        else
          Except.ok ({ t with
            delay := t.delay + (t.tape_timings.pilot_length : Int),
            state := TapeState.PureTone pulses_left }, 1)
    | TapeState.PulseSequence pulses_left =>
      let t := { t with curr_bit := !t.curr_bit }
      if pulses_left = 0 then Except.error TzxError.rustPanic
      else
        let pulses_left := pulses_left - 1
        if pulses_left = 0 then
          Except.ok ({ t with state := TapeState.Play }, 1)
        else
          match t.next_block_byte with
          | Except.error e => Except.error e
          | Except.ok (none, _) => Except.error TzxError.invalidTzxFile
          | Except.ok (some byte1, t1) =>
            match t1.next_block_byte with
            | Except.error e => Except.error e
            | Except.ok (none, _) => Except.error TzxError.invalidTzxFile
            | Except.ok (some byte2, t2) =>
              Except.ok ({ t2 with
                delay := t2.delay + (le16 byte1 byte2 : Int),
                state := TapeState.PulseSequence pulses_left }, 1)
    | TapeState.Sync =>
      Except.ok ({ t with
        curr_bit := !t.curr_bit,
        delay := t.delay + (t.tape_timings.sync2_length : Int),
        state := TapeState.NextBit 0x80 }, 1)
    | TapeState.NextByte is_direct_recording_sample =>
      match t.next_block_byte with
      | Except.error e => Except.error e
      | Except.ok (some byte, t1) =>
        Tzx.stepLoop fuel { t1 with
          curr_byte := byte,
          state := if is_direct_recording_sample then
            TapeState.NextDirectRecordingBit 0x80
          else TapeState.NextBit 0x80 }
      | Except.ok (none, t1) =>
        Tzx.stepLoop fuel { t1 with state := TapeState.Pause }
    | TapeState.NextBit mask =>
      let t := { t with curr_bit := !t.curr_bit }
      if t.curr_byte &&& mask = 0 then
        Except.ok ({ t with
          delay := t.delay + (t.tape_timings.bit_0_length : Int),
          state := TapeState.BitHalf t.tape_timings.bit_0_length mask }, 1)
      else
        Except.ok ({ t with
          delay := t.delay + (t.tape_timings.bit_1_length : Int),
          state := TapeState.BitHalf t.tape_timings.bit_1_length mask }, 1)
    | TapeState.NextDirectRecordingBit mask =>
      let bit : Bool := t.curr_byte &&& mask = 0
      let t := { t with delay := t.delay + (t.tape_timings.bit_0_length : Int) }
      let flipped : Bool := bit ≠ t.curr_bit
      let t := if flipped then { t with curr_bit := !t.curr_bit } else t
      let mask := mask >>> 1
      if t.bits_to_process_in_byte = 0 then Except.error TzxError.rustPanic
      else
        let t := { t with bits_to_process_in_byte := t.bits_to_process_in_byte - 1 }
        Except.ok ({ t with state :=
          if mask = 0 ∨ t.bits_to_process_in_byte = 0 then
            TapeState.NextByte true
          else TapeState.NextDirectRecordingBit mask }, if flipped then 1 else 0)
    | TapeState.BitHalf half_bit_delay mask =>
      let t := { t with
        curr_bit := !t.curr_bit,
        delay := t.delay + (half_bit_delay : Int) }
      let mask := mask >>> 1
      if t.bits_to_process_in_byte = 0 then Except.error TzxError.rustPanic
      else
        let t := { t with bits_to_process_in_byte := t.bits_to_process_in_byte - 1 }
        Except.ok ({ t with state :=
          if mask = 0 ∨ t.bits_to_process_in_byte = 0 then
            TapeState.NextByte false
          else TapeState.NextBit mask }, 1)
    | TapeState.Pause =>
      let t := { t with
        delay := t.delay + ((t.tape_timings.pause_length * 3500 : Nat) : Int),
        state := TapeState.Play,
        curr_bit := !t.curr_bit }
      if 0 < t.delay then Except.ok (t, 1)
      else
        match Tzx.stepLoop fuel t with
        | Except.error e => Except.error e
        | Except.ok (t2, c) => Except.ok (t2, c + 1)
    | TapeState.Silence length =>
      Except.ok ({ t with
        curr_bit := !t.curr_bit,
        delay := t.delay + ((length * 3500 : Nat) : Int),
        state := TapeState.Play }, 1)

/-- `process_clocks(clocks)`: early return when stopped; otherwise consume the
delay and, if it is no longer positive, run the state machine loop. The `Nat`
is the number of edges emitted by the call. -/
def Tzx.process_clocks (fuel : Nat) (t : Tzx) (clocks : Nat) :
    Except TzxError (Tzx × Nat) :=
  if t.state = TapeState.Stop then Except.ok (t, 0)
  else
    let t := if 0 < t.delay then { t with delay := t.delay - (clocks : Int) } else t
    if 0 < t.delay then Except.ok (t, 0)
    else t.stepLoop fuel

/-- `stop()`. -/
def Tzx.stop (t : Tzx) : Tzx :=
  { t with prev_state := t.state, state := TapeState.Stop }

/-- `play()`. -/
def Tzx.play (t : Tzx) : Tzx :=
  if t.state = TapeState.Stop then
    if t.prev_state = TapeState.Stop then { t with state := TapeState.Play }
    else { t with state := t.prev_state }
  else t

/-- `rewind()` (the modelled `seek` cannot fail, so the `Ok(())` is implicit).
Note the source resets neither `state` nor `prev_state` nor the timings. -/
def Tzx.rewind (t : Tzx) : Tzx :=
  { t with
    curr_bit := false, curr_byte := 0x00, block_bytes_read := 0,
    buffer_offset := 0, current_block_size := none, delay := 0,
    asset := { t.asset with pos := 0 }, tape_ended := false }

/-- One host call that lands exactly on the next scheduled edge:
`process_clocks(delay)` (or `process_clocks(0)` when no delay is pending).
The loop fuel 8 covers every zero-delay chain reachable in the runs below. -/
def Tzx.tick (t : Tzx) : Except TzxError (Tzx × Nat) :=
  t.process_clocks 8 t.delay.toNat

/-- Repeated `tick`s, summing the emitted edges, until the machine rests in
`Play` (the current block is finished) or `Stop`. -/
def Tzx.countBlockEdges : Nat → Tzx → Except TzxError Nat
  | 0, _ => Except.error TzxError.outOfFuel
  | fuel + 1, t =>
    if t.state = TapeState.Play ∨ t.state = TapeState.Stop then Except.ok 0
    else
      match t.tick with
      | Except.error e => Except.error e
      | Except.ok (t1, c) =>
        match Tzx.countBlockEdges fuel t1 with
        | Except.error e => Except.error e
        | Except.ok c2 => Except.ok (c + c2)

/-- A sequence of host calls `process_clocks(1)`, as the literal spec
scenarios use. -/
def Tzx.runCalls : Nat → Tzx → Except TzxError Tzx
  | 0, t => Except.ok t
  | n + 1, t =>
    match t.process_clocks 16 1 with
    | Except.error e => Except.error e
    | Except.ok (t1, _) => Tzx.runCalls n t1

/-- The 10 header bytes of a TZX file, `"ZXTape!\x1A"` plus version 1.20. -/
def tzxHeader : List Nat :=
  [0x5A, 0x58, 0x54, 0x61, 0x70, 0x65, 0x21, 0x1A, 0x01, 0x14]

/-- Fresh engine on the given tape image (48K mode off). -/
def mkEngine (data : List Nat) : Tzx :=
  Tzx.from_asset { data := data, pos := 0 } false

/-- Scenario 4 of the spec: LoopStart reps=3, a PureTone of 2 pulses of width
0x0808 = 2056 T-states, LoopEnd. -/
def loopTape : List Nat :=
  tzxHeader ++ [0x24, 0x03, 0x00, 0x12, 0x08, 0x08, 0x02, 0x00, 0x25]

/-- A tape with one StandardSpeedData block: pause 1000 ms, size 1,
payload byte 0xFF. -/
def stdTape : List Nat := tzxHeader ++ [0x10, 0xE8, 0x03, 0x01, 0x00, 0xFF]

/-- The `0x20`-with-value-0 STOP condition at the engine's read position. -/
def stop20 (t : Tzx) : Prop :=
  t.asset.data[t.asset.pos]? = some 0x20 ∧
  t.asset.data[t.asset.pos + 1]? = some 0 ∧
  t.asset.data[t.asset.pos + 2]? = some 0

/-- The `0x2A`-in-48K-mode STOP condition at the engine's read position (the
four header bytes must be present, else the read failure is absorbed). -/
def stop2A (t : Tzx) : Prop :=
  t.asset.data[t.asset.pos]? = some 0x2A ∧
  t.is_48k_mode = true ∧
  t.asset.pos + 5 ≤ t.asset.data.length

/-- Bookkeeping invariant of a StandardSpeedData block being streamed: `i`
payload bytes consumed, standard timings with pause `p` (and untouched
`pilot_tone_length` `tone`), the sliding window aligned at
`128 * ((i-1)/128)`, the window holding the corresponding payload bytes and
the byte source holding the payload bytes beyond the window. -/
def StdBlockLoaded (payload : List Nat) (u p : Nat) (tone : Option Nat)
    (t : Tzx) (i : Nat) : Prop :=
  t.tape_ended = false ∧
  t.current_block_size = some payload.length ∧
  t.block_bytes_read = i ∧
  t.used_bits_in_last_byte = u ∧
  t.tape_timings = { TapeTimings.default with
                     pause_length := p
                     pilot_tone_length := tone } ∧
  t.buffer_offset = 128 * ((i - 1) / 128) ∧
  (∀ k, t.buffer_offset + k < payload.length → k < 128 →
    listGet t.buffer k = listGet payload (t.buffer_offset + k)) ∧
  payload.drop (t.buffer_offset + 128) =
    (t.asset.data.drop t.asset.pos).take (payload.length - t.buffer_offset - 128)

/-- A small engine for exercising `next_block_byte`: an active two-byte block
with nothing yet consumed. -/
def c5Engine : Tzx :=
  { Tzx.from_asset { data := [], pos := 0 } false with current_block_size := some 2 }

/-- The state `next_block_byte` leaves `c5Engine` in after serving its first
payload byte. -/
def c5After : Tzx :=
  { c5Engine with block_bytes_read := 1, bits_to_process_in_byte := 8 }

/-- A run of the tick-level driver: from `t`, `n` ticks occur (each from a
state that is neither `Play` nor `Stop`), emitting `c` edges in total and
ending at the second state. -/
inductive Runs : Tzx → Nat → Nat → Tzx → Prop
  | refl (t : Tzx) : Runs t 0 0 t
  | step {t t1 t2 : Tzx} {e n c : Nat} :
      ¬(t.state = TapeState.Play ∨ t.state = TapeState.Stop) →
      t.tick = Except.ok (t1, e) →
      Runs t1 n c t2 →
      Runs t (n + 1) (e + c) t2

/-- The engine about to dispatch the loaded StandardSpeedData block of
`stdTape` (block header consumed, the single payload byte `0xFF` in the
window, `block_bytes_read = 0`). -/
def c4Engine : Tzx :=
  { mkEngine stdTape with
    asset := { data := stdTape, pos := 16 }
    state := TapeState.Process
    current_block_id := some TzxBlockId.StandardSpeedData
    current_block_size := some 1
    buffer := writeBuffer (List.replicate 128 0) [0xFF]
    tape_timings := { TapeTimings.default with pause_length := 1000 } }

/-- C8: with `state = Stop`, `process_clocks(n)` returns `Ok(())` immediately
and the engine (hence `current_bit()`, the delay, all bookkeeping and the
byte-source position) is unchanged, for every clock count and fuel. -/
theorem c8_process_clocks_stop_noop (fuel clocks : Nat) (t : Tzx)
    (h : t.state = TapeState.Stop) :
    t.process_clocks fuel clocks = Except.ok (t, 0) := by
  simp [Tzx.process_clocks, h]

theorem c8_process_clocks_stop_noop_witness :
    ((mkEngine []).stop).process_clocks 8 1000 =
      Except.ok ((mkEngine []).stop, 0) :=
  c8_process_clocks_stop_noop 8 1000 ((mkEngine []).stop) rfl

/-- C7 (amended part): `rewind()` zeroes the byte-source position, clears
`tape_ended`, `curr_bit`, `curr_byte`, `delay` and the sliding-buffer
bookkeeping (`block_bytes_read`, `buffer_offset`, `current_block_size`). It
does not touch `state`, `prev_state`, the timings, `current_block_id`,
`used_bits_in_last_byte` or `num_repetitions`, so replay equality with the
first run fails in general (see the counterexample). -/
theorem c7_rewind_postconditions (t : Tzx) :
    (t.rewind).asset.pos = 0 ∧
    (t.rewind).tape_ended = false ∧
    (t.rewind).current_bit = false ∧
    (t.rewind).curr_byte = 0 ∧
    (t.rewind).block_bytes_read = 0 ∧
    (t.rewind).buffer_offset = 0 ∧
    (t.rewind).current_block_size = none ∧
    (t.rewind).delay = 0 ∧
    (t.rewind).state = t.state :=
  ⟨rfl, rfl, rfl, rfl, rfl, rfl, rfl, rfl, rfl⟩

/-- C7 (counterexample to the replay part): run two host calls on a tape with
one StandardSpeedData block (the engine is then mid-pilot), `rewind()`, and
replay the same first delta (1 clock). The rewound engine emits a pilot edge
(`current_bit` flips to true) while the first run from construction performs
the `Init` transition and keeps `current_bit = false`: the `(edge, bit)`
sequences differ already at the first delta. -/
theorem c7_replay_after_rewind_differs :
    (((mkEngine stdTape).runCalls 2).map Tzx.rewind).bind
        (fun t => (t.process_clocks 16 1).map (fun r => r.1.current_bit)) ≠
      ((mkEngine stdTape).process_clocks 16 1).map (fun r => r.1.current_bit) := by
  decide

/-- C3 (counterexample): on the header-only tape, a single `process_clocks(1)`
does not leave the machine in `Stop` — the `Init` arm breaks the loop right
after the header read, with `state = Play`. -/
theorem c3_first_call_does_not_stop :
    ∃ t1 c, (mkEngine tzxHeader).process_clocks 16 1 = Except.ok (t1, c) ∧
      t1.state ≠ TapeState.Stop := by
  refine ⟨_, _, rfl, by decide⟩

/-- C3 (amended): on the header-only tape the first `process_clocks(1)`
returns `Ok` with `state = Play`, `current_bit() = false` and no edge; the
second call performs Play→Stop (the id read hits end of stream, so
`tape_ended` is set) with `current_bit()` still false. -/
theorem c3_header_only_two_calls :
    ∃ t1 t2, (mkEngine tzxHeader).process_clocks 16 1 = Except.ok (t1, 0) ∧
      t1.state = TapeState.Play ∧ t1.current_bit = false ∧
      t1.process_clocks 16 1 = Except.ok (t2, 0) ∧
      t2.state = TapeState.Stop ∧ t2.tape_ended = true ∧
      t2.current_bit = false := by
  refine ⟨_, _, rfl, by decide, by decide, rfl, by decide, by decide, by decide⟩

/-- C10: the pulse machine underflows (panics) on zero counts: `Pilot`,
`PureTone` and `PulseSequence` decrement `pulses_left` with no zero check,
`BitHalf` and `NextDirectRecordingBit` decrement `bits_to_process_in_byte`
with no zero check; and the TurboSpeedData dispatcher primes
`Pilot {pulses_left = 0}` from `pilot_tone_length = 0`, so the very next
`process_clocks` panics. (`delay ≤ 0` makes the call reach the state arm.) -/
theorem c10_zero_count_underflow_panics (fuel clocks : Nat) (t : Tzx)
    (hd : t.delay ≤ 0) :
    (t.state = TapeState.Pilot 0 →
      t.process_clocks (fuel + 1) clocks = Except.error TzxError.rustPanic) ∧
    (t.state = TapeState.PureTone 0 →
      t.process_clocks (fuel + 1) clocks = Except.error TzxError.rustPanic) ∧
    (t.state = TapeState.PulseSequence 0 →
      t.process_clocks (fuel + 1) clocks = Except.error TzxError.rustPanic) ∧
    (∀ w m, t.state = TapeState.BitHalf w m → t.bits_to_process_in_byte = 0 →
      t.process_clocks (fuel + 1) clocks = Except.error TzxError.rustPanic) ∧
    (∀ m, t.state = TapeState.NextDirectRecordingBit m →
      t.bits_to_process_in_byte = 0 →
      t.process_clocks (fuel + 1) clocks = Except.error TzxError.rustPanic) ∧
    (∀ b t1, t.state = TapeState.Process →
      t.current_block_id = some TzxBlockId.TurboSpeedData →
      t.next_block_byte = Except.ok (some b, t1) →
      t1.tape_timings.pilot_tone_length = some 0 →
      ∃ t2 c, t.process_clocks (fuel + 1) clocks = Except.ok (t2, c) ∧
        t2.state = TapeState.Pilot 0) := by
  have hnd : ¬ (0 < t.delay) := not_lt.mpr hd
  refine ⟨?_, ?_, ?_, ?_, ?_, ?_⟩
  · intro h
    simp [Tzx.process_clocks, h, hnd, Tzx.stepLoop]
  · intro h
    simp [Tzx.process_clocks, h, hnd, Tzx.stepLoop]
  · intro h
    simp [Tzx.process_clocks, h, hnd, Tzx.stepLoop]
  · intro w m h hb
    simp [Tzx.process_clocks, h, hnd, Tzx.stepLoop, hb]
  · intro m h hb
    simp [Tzx.process_clocks, h, hnd, Tzx.stepLoop, hb]
    split <;> rfl
  · intro b t1 hst hid hnb htone
    refine ⟨{ t1 with
              curr_byte := b,
              delay := t1.delay + (t1.tape_timings.pilot_length : Int),
              state := TapeState.Pilot 0 },
            if t1.curr_bit = t.curr_bit then 0 else 1, ?_, rfl⟩
    simp [Tzx.process_clocks, hst, hnd, Tzx.stepLoop,
      Tzx.process_current_block, hid, hnb, htone]

theorem c10_zero_count_underflow_panics_witness :
    ({ mkEngine [] with state := TapeState.Pilot 0 }).process_clocks 8 5 =
      Except.error TzxError.rustPanic :=
  (c10_zero_count_underflow_panics 7 5
    { mkEngine [] with state := TapeState.Pilot 0 } (by decide)).1 rfl

/-- The idle fixpoint behind the C6 wedge: with `state = Process`,
`current_block_id = None` and no pending delay, `process_current_block` is a
successful no-op, so every `process_clocks` call returns `Ok` having changed
nothing and emitted nothing. -/
theorem process_clocks_dispatch_none_fix (t : Tzx) (fuel clocks : Nat)
    (hst : t.state = TapeState.Process) (hid : t.current_block_id = none)
    (hd : t.delay = 0) :
    t.process_clocks (fuel + 1) clocks = Except.ok (t, 0) := by
  simp [Tzx.process_clocks, hst, hd, Tzx.stepLoop, Tzx.process_current_block, hid]

/-- C6: the LoopStart scenario of the spec (header, `0x24 reps=3`, PureTone of
2 pulses of 2056 T-states, `0x25`) never emits those pulses: the `0x24` arm of
`next_block` does not set `current_block_id`, so after the second host call
the engine sits in `Process` with `current_block_id = None` and every further
`process_clocks` is an `Ok` no-op — the machine is wedged and no edge is ever
produced, although the 0x25 arm itself does decrement `num_repetitions` and
seek back as claimed. -/
theorem c6_loop_scenario_wedges_in_process :
    ∃ t2, (mkEngine loopTape).runCalls 2 = Except.ok t2 ∧
      t2.state = TapeState.Process ∧
      t2.current_block_id = none ∧
      t2.num_repetitions = some 3 ∧
      t2.current_bit = false ∧
      ∀ fuel clocks, t2.process_clocks (fuel + 1) clocks = Except.ok (t2, 0) := by
  refine ⟨_, rfl, by decide, by decide, by decide, by decide, ?_⟩
  intro fuel clocks
  exact process_clocks_dispatch_none_fix _ fuel clocks (by decide) (by decide)
    (by decide)

/-- C9: `next_block` is not total: a GroupStart (0x21) or TextDescription
(0x30) block whose length byte exceeds `BUFFER_SIZE = 128` makes the source
slice `buffer[0..num_chars]` out of range and panics instead of returning a
`Result` — so totality over these blocks needs the precondition
`length ≤ 128`. -/
theorem c9_text_length_over_buffer_panics (t : Tzx) (L : Nat) (rest : List Nat)
    (hend : t.tape_ended = false) (hL : 128 < L) :
    (t.asset.data.drop t.asset.pos = 0x21 :: L :: rest →
      t.next_block = Except.error TzxError.rustPanic) ∧
    (t.asset.data.drop t.asset.pos = 0x30 :: L :: rest →
      t.next_block = Except.error TzxError.rustPanic) := by
  constructor <;> intro hdrop <;> {
    have hlen : (t.asset.data.drop t.asset.pos).length = rest.length + 2 := by
      rw [hdrop]; rfl
    rw [List.length_drop] at hlen
    have hd2 : t.asset.data.drop (t.asset.pos + 1) = L :: rest := by
      simpa using congrArg (List.drop 1) hdrop
    have hle1 : t.asset.pos + 1 ≤ t.asset.data.length := by omega
    have hle2 : t.asset.pos + 1 + 1 ≤ t.asset.data.length := by omega
    have h1 : t.asset.read_exact 1 =
        some ((t.asset.data.drop t.asset.pos).take 1,
          { t.asset with pos := t.asset.pos + 1 }) := by
      simp [Asset.read_exact, hle1]
    have h2 : (({ t.asset with pos := t.asset.pos + 1 } : Asset)).read_exact 1 =
        some ([L], { t.asset with pos := t.asset.pos + 1 + 1 }) := by
      simp [Asset.read_exact, hle2, hd2]
    simp [Tzx.next_block, Tzx.next_block_0x21, Tzx.next_block_0x30, hend, h1,
      h2, hdrop, listGet, hL, BUFFER_SIZE]
  }

theorem c9_text_length_over_buffer_panics_witness :
    (mkEngine [0x21, 200]).next_block = Except.error TzxError.rustPanic ∧
    (mkEngine [0x30, 129]).next_block = Except.error TzxError.rustPanic :=
  ⟨(c9_text_length_over_buffer_panics (mkEngine [0x21, 200]) 200 [] rfl
      (by decide)).1 rfl,
   (c9_text_length_over_buffer_panics (mkEngine [0x30, 129]) 129 [] rfl
      (by decide)).2 rfl⟩

/-- A successful `process_current_block` invoked from the `Process` state
leaves a state other than `Init` and `Pause` (either the dispatched
pulse-machine state, or `Process` itself when `current_block_id = None`). -/
theorem process_current_block_ok_state (t t1 : Tzx)
    (hst : t.state = TapeState.Process)
    (h : t.process_current_block = (t1, Except.ok ())) :
    t1.state ≠ TapeState.Init ∧ t1.state ≠ TapeState.Pause := by
  unfold Tzx.process_current_block at h
  repeat' split at h
  all_goals (try (dsimp only at h))
  all_goals (repeat' split at h)
  all_goals (injection h with h1 h2)
  all_goals (try (injection h2))
  all_goals (subst h1)
  all_goals simp [hst]

/-- Every `Ok` exit of the `'state_machine` loop leaves a state other than
`Init` and `Pause`: `Init` always advances to `Play`, and `Pause` never
breaks the loop (it either breaks as `Play` or chases on). -/
theorem stepLoop_ok_state : ∀ (fuel : Nat) (t t1 : Tzx) (c : Nat),
    t.stepLoop fuel = Except.ok (t1, c) →
    t1.state ≠ TapeState.Init ∧ t1.state ≠ TapeState.Pause := by
  intro fuel
  induction fuel with
  | zero => intro t t1 c h; simp [Tzx.stepLoop] at h
  | succ fuel ih =>
    intro t t1 c h
    unfold Tzx.stepLoop at h
    split at h
    all_goals (repeat' split at h)
    all_goals (try (dsimp only at h))
    all_goals (repeat' split at h)
    all_goals
      first
      | exact ih _ _ _ h
      | (simp only [Except.ok.injEq, Prod.mk.injEq] at h
         obtain ⟨rfl, rfl⟩ := h
         first
         | (simp
            done)
         | ((constructor <;> (intro hc; split at hc <;> simp_all)) <;> done)
         | exact process_current_block_ok_state _ _ (by assumption) (by assumption)
         | exact ih _ _ _ (by assumption))
      | (simp at h)

/-- C1 (amended): the claimed invariant `state = Stop ∨ delay > 0 ∨
tape_ended` does not hold after `process_clocks` (see the counterexample: the
`Init` arm, loop-control blocks, and overrun edges all break the loop with
`delay ≤ 0`). What does hold: whenever `process_clocks` returns `Ok` on an
engine not resting in `Pause` (and with no pending delay if resting in
`Init` — both true of every reachable resting state), the machine again rests
in neither `Init` nor `Pause`. -/
theorem c1_process_clocks_never_rests_in_init_or_pause
    (fuel clocks : Nat) (t t1 : Tzx) (c : Nat)
    (hp : t.state ≠ TapeState.Pause)
    (hi : t.state = TapeState.Init → t.delay ≤ 0)
    (h : t.process_clocks fuel clocks = Except.ok (t1, c)) :
    t1.state ≠ TapeState.Init ∧ t1.state ≠ TapeState.Pause := by
  unfold Tzx.process_clocks at h
  split at h
  case _ hstop =>
    simp only [Except.ok.injEq, Prod.mk.injEq] at h
    obtain ⟨rfl, rfl⟩ := h
    rw [hstop]
    simp
  case _ hstop =>
    dsimp only at h
    by_cases hdel : 0 < t.delay
    · rw [if_pos hdel] at h
      dsimp only at h
      split at h
      · case _ hdpos =>
        simp only [Except.ok.injEq, Prod.mk.injEq] at h
        obtain ⟨rfl, rfl⟩ := h
        refine ⟨fun hInit => ?_, hp⟩
        have := hi hInit
        omega
      · exact stepLoop_ok_state _ _ _ _ h
    · rw [if_neg hdel, if_neg hdel] at h
      exact stepLoop_ok_state _ _ _ _ h

theorem c1_process_clocks_never_rests_in_init_or_pause_witness :
    ∃ t1, (mkEngine tzxHeader).process_clocks 16 1 = Except.ok (t1, 0) ∧
      t1.state ≠ TapeState.Init ∧ t1.state ≠ TapeState.Pause := by
  refine ⟨_, rfl, ?_⟩
  exact c1_process_clocks_never_rests_in_init_or_pause 16 1 (mkEngine tzxHeader)
    _ 0 (by decide) (fun _ => by decide) rfl

/-- C1 (counterexample): on the header-only tape, the very first
`process_clocks(1)` (which executes the `Init` transition) returns `Ok(())`
with `state = Play`, `delay = 0` and `tape_ended = false` — refuting the
claimed disjunction. -/
theorem c1_invariant_fails_after_init :
    ∃ t1, (mkEngine tzxHeader).process_clocks 16 1 = Except.ok (t1, 0) ∧
      ¬(t1.state = TapeState.Stop ∨ 0 < t1.delay ∨ t1.tape_ended = true) := by
  refine ⟨_, rfl, by decide⟩

/-- A successful `read_exact` leaves the data unchanged, advances the cursor
by `n`, returns the `n` bytes at the cursor, and implies they were present. -/
theorem read_exact_parts {a : Asset} {n : Nat} {bs : List Nat} {a' : Asset}
    (h : a.read_exact n = some (bs, a')) :
    a'.data = a.data ∧ a'.pos = a.pos + n ∧
    bs = (a.data.drop a.pos).take n ∧ a.pos + n ≤ a.data.length := by
  unfold Asset.read_exact at h
  split at h
  · simp only [Option.some.injEq, Prod.mk.injEq] at h
    obtain ⟨rfl, rfl⟩ := h
    exact ⟨rfl, rfl, rfl, by assumption⟩
  · simp at h

/-- Each byte delivered by a successful `read_exact` is the corresponding
byte of the source. -/
theorem read_exact_byte {a : Asset} {n : Nat} {bs : List Nat} {a' : Asset}
    (h : a.read_exact n = some (bs, a')) (i : Nat) (hi : i < n) :
    a.data[a.pos + i]? = some (listGet bs i) := by
  obtain ⟨-, -, rfl, hle⟩ := read_exact_parts h
  have h2 : a.pos + i < a.data.length := by omega
  simp only [listGet]
  rw [List.getD_eq_getElem?_getD, List.getElem?_take_of_lt hi,
    List.getElem?_drop, List.getElem?_eq_getElem h2]
  rfl

set_option maxHeartbeats 1600000 in
/-- C2 (amended): when `next_block` returns `Ok(b, ·)`, `b = false` holds
exactly when the tape had already ended, an id/header/text read failure was
absorbed into `tape_ended`, the block is `0x20` with value 0, or `0x2A` with
the engine in 48K mode. (The payload reads of ids 0x10/0x11/0x13/0x14
propagate `Err` instead of being absorbed — see the counterexample — so those
failures never show up as `Ok(false)`.) -/
theorem c2_next_block_false_iff (t : Tzx) (b : Bool) (t' : Tzx)
    (h : t.next_block = Except.ok (b, t')) :
    (b = false ↔
      (t.tape_ended = true ∨ t'.tape_ended = true ∨ stop20 t ∨ stop2A t)) := by
  unfold Tzx.next_block at h
  by_cases hte : t.tape_ended = true
  · rw [if_pos hte] at h
    simp only [Except.ok.injEq, Prod.mk.injEq] at h
    obtain ⟨rfl, rfl⟩ := h
    simp [hte]
  · rw [if_neg hte] at h
    rcases hr1 : t.asset.read_exact 1 with _ | ⟨bs1, a1⟩ <;> rw [hr1] at h
    · simp only [Except.ok.injEq, Prod.mk.injEq] at h
      obtain ⟨rfl, rfl⟩ := h
      simp
    · dsimp only at h
      have hbyte := read_exact_byte hr1 0 (by decide)
      rw [Nat.add_zero] at hbyte
      obtain ⟨ha1d, ha1p, -, hlen1⟩ := read_exact_parts hr1
      by_cases h20 : listGet bs1 0 = 0x20
      · rw [h20] at hbyte
        simp only [h20] at h
        norm_num at h
        simp only [Tzx.next_block_0x20] at h
        try dsimp only at h
        rcases hr2 : a1.read_exact 2 with _ | ⟨hb, a2⟩ <;> rw [hr2] at h <;>
          (try dsimp only at h)
        · simp only [Except.ok.injEq, Prod.mk.injEq] at h
          obtain ⟨rfl, rfl⟩ := h
          simp
        · have hb0 := read_exact_byte hr2 0 (by decide)
          have hb1 := read_exact_byte hr2 1 (by decide)
          rw [ha1d, ha1p, Nat.add_zero] at hb0
          rw [ha1d, ha1p, show t.asset.pos + 1 + 1 = t.asset.pos + 2 from rfl]
            at hb1
          by_cases hval : le16 (listGet hb 0) (listGet hb 1) = 0
          · rw [if_pos hval] at h
            simp only [Except.ok.injEq, Prod.mk.injEq] at h
            obtain ⟨rfl, rfl⟩ := h
            have hzz : listGet hb 0 = 0 ∧ listGet hb 1 = 0 := by
              unfold le16 at hval; omega
            refine iff_of_true rfl (Or.inr (Or.inr (Or.inl ⟨hbyte, ?_, ?_⟩)))
            · rw [hb0, hzz.1]
            · rw [hb1, hzz.2]
          · rw [if_neg hval] at h
            simp only [Except.ok.injEq, Prod.mk.injEq] at h
            obtain ⟨rfl, rfl⟩ := h
            simp only [Bool.true_eq_false, false_iff]
            rintro (hA | hB | ⟨-, hs1, hs2⟩ | ⟨hsA, -, -⟩)
            · exact hte hA
            · exact hte hB
            · rw [hb0] at hs1
              rw [hb1] at hs2
              simp only [Option.some.injEq] at hs1 hs2
              exact hval (by unfold le16; omega)
            · rw [hbyte] at hsA
              simp at hsA
      · by_cases h2A : listGet bs1 0 = 0x2A
        · rw [h2A] at hbyte
          simp only [h2A] at h
          norm_num at h
          simp only [Tzx.next_block_0x2A] at h
          try dsimp only at h
          rcases hr2 : a1.read_exact 4 with _ | ⟨hb, a2⟩ <;> rw [hr2] at h <;>
            (try dsimp only at h)
          · simp only [Except.ok.injEq, Prod.mk.injEq] at h
            obtain ⟨rfl, rfl⟩ := h
            simp
          · obtain ⟨ha2d, ha2p, -, hlen2⟩ := read_exact_parts hr2
            split at h
            · rename_i h48
              simp only [Except.ok.injEq, Prod.mk.injEq] at h
              obtain ⟨rfl, rfl⟩ := h
              refine iff_of_true rfl
                (Or.inr (Or.inr (Or.inr ⟨hbyte, h48, ?_⟩)))
              rw [ha1d, ha1p] at hlen2
              omega
            · rename_i h48
              simp only [Except.ok.injEq, Prod.mk.injEq] at h
              obtain ⟨rfl, rfl⟩ := h
              simp only [Bool.true_eq_false, false_iff]
              rintro (hA | hB | ⟨hs1, -, -⟩ | ⟨-, hsA, -⟩)
              · exact hte hA
              · exact hte hB
              · rw [hbyte] at hs1
                simp at hs1
              · exact h48 hsA
        · -- remaining ids: peel the dispatch chain one test at a time
          by_cases hc10 : listGet bs1 0 = 0x10
          · rw [if_pos hc10] at h
            try simp only [Tzx.next_block_0x10, Tzx.next_block_0x11,
              Tzx.next_block_0x12, Tzx.next_block_0x13, Tzx.next_block_0x14,
              Tzx.next_block_0x15, Tzx.next_block_unsupported, Tzx.next_block_0x21,
              Tzx.next_block_0x24, Tzx.next_block_0x25, Tzx.next_block_0x28,
              Tzx.next_block_0x30, Tzx.next_block_0x32] at h
            try dsimp only at h
            repeat' split at h
            all_goals (try (dsimp only at h))
            all_goals (repeat' split at h)
            all_goals
              first
              | (simp only [Except.ok.injEq, Prod.mk.injEq] at h
                 obtain ⟨rfl, rfl⟩ := h
                 simp_all [stop20, stop2A])
              | (simp at h)
          rw [if_neg hc10] at h
          by_cases hc11 : listGet bs1 0 = 0x11
          · rw [if_pos hc11] at h
            try simp only [Tzx.next_block_0x10, Tzx.next_block_0x11,
              Tzx.next_block_0x12, Tzx.next_block_0x13, Tzx.next_block_0x14,
              Tzx.next_block_0x15, Tzx.next_block_unsupported, Tzx.next_block_0x21,
              Tzx.next_block_0x24, Tzx.next_block_0x25, Tzx.next_block_0x28,
              Tzx.next_block_0x30, Tzx.next_block_0x32] at h
            try dsimp only at h
            repeat' split at h
            all_goals (try (dsimp only at h))
            all_goals (repeat' split at h)
            all_goals
              first
              | (simp only [Except.ok.injEq, Prod.mk.injEq] at h
                 obtain ⟨rfl, rfl⟩ := h
                 simp_all [stop20, stop2A])
              | (simp at h)
          rw [if_neg hc11] at h
          by_cases hc12 : listGet bs1 0 = 0x12
          · rw [if_pos hc12] at h
            try simp only [Tzx.next_block_0x10, Tzx.next_block_0x11,
              Tzx.next_block_0x12, Tzx.next_block_0x13, Tzx.next_block_0x14,
              Tzx.next_block_0x15, Tzx.next_block_unsupported, Tzx.next_block_0x21,
              Tzx.next_block_0x24, Tzx.next_block_0x25, Tzx.next_block_0x28,
              Tzx.next_block_0x30, Tzx.next_block_0x32] at h
            try dsimp only at h
            repeat' split at h
            all_goals (try (dsimp only at h))
            all_goals (repeat' split at h)
            all_goals
              first
              | (simp only [Except.ok.injEq, Prod.mk.injEq] at h
                 obtain ⟨rfl, rfl⟩ := h
                 simp_all [stop20, stop2A])
              | (simp at h)
          rw [if_neg hc12] at h
          by_cases hc13 : listGet bs1 0 = 0x13
          · rw [if_pos hc13] at h
            try simp only [Tzx.next_block_0x10, Tzx.next_block_0x11,
              Tzx.next_block_0x12, Tzx.next_block_0x13, Tzx.next_block_0x14,
              Tzx.next_block_0x15, Tzx.next_block_unsupported, Tzx.next_block_0x21,
              Tzx.next_block_0x24, Tzx.next_block_0x25, Tzx.next_block_0x28,
              Tzx.next_block_0x30, Tzx.next_block_0x32] at h
            try dsimp only at h
            repeat' split at h
            all_goals (try (dsimp only at h))
            all_goals (repeat' split at h)
            all_goals
              first
              | (simp only [Except.ok.injEq, Prod.mk.injEq] at h
                 obtain ⟨rfl, rfl⟩ := h
                 simp_all [stop20, stop2A])
              | (simp at h)
          rw [if_neg hc13] at h
          by_cases hc14 : listGet bs1 0 = 0x14
          · rw [if_pos hc14] at h
            try simp only [Tzx.next_block_0x10, Tzx.next_block_0x11,
              Tzx.next_block_0x12, Tzx.next_block_0x13, Tzx.next_block_0x14,
              Tzx.next_block_0x15, Tzx.next_block_unsupported, Tzx.next_block_0x21,
              Tzx.next_block_0x24, Tzx.next_block_0x25, Tzx.next_block_0x28,
              Tzx.next_block_0x30, Tzx.next_block_0x32] at h
            try dsimp only at h
            repeat' split at h
            all_goals (try (dsimp only at h))
            all_goals (repeat' split at h)
            all_goals
              first
              | (simp only [Except.ok.injEq, Prod.mk.injEq] at h
                 obtain ⟨rfl, rfl⟩ := h
                 simp_all [stop20, stop2A])
              | (simp at h)
          rw [if_neg hc14] at h
          by_cases hc15 : listGet bs1 0 = 0x15
          · rw [if_pos hc15] at h
            try simp only [Tzx.next_block_0x10, Tzx.next_block_0x11,
              Tzx.next_block_0x12, Tzx.next_block_0x13, Tzx.next_block_0x14,
              Tzx.next_block_0x15, Tzx.next_block_unsupported, Tzx.next_block_0x21,
              Tzx.next_block_0x24, Tzx.next_block_0x25, Tzx.next_block_0x28,
              Tzx.next_block_0x30, Tzx.next_block_0x32] at h
            try dsimp only at h
            repeat' split at h
            all_goals (try (dsimp only at h))
            all_goals (repeat' split at h)
            all_goals
              first
              | (simp only [Except.ok.injEq, Prod.mk.injEq] at h
                 obtain ⟨rfl, rfl⟩ := h
                 simp_all [stop20, stop2A])
              | (simp at h)
          rw [if_neg hc15] at h
          by_cases hcG1 : listGet bs1 0 = 0x16 ∨ listGet bs1 0 = 0x17 ∨ listGet bs1 0 = 0x18 ∨
              listGet bs1 0 = 0x19 ∨ listGet bs1 0 = 0x2B
          · rw [if_pos hcG1] at h
            try simp only [Tzx.next_block_0x10, Tzx.next_block_0x11,
              Tzx.next_block_0x12, Tzx.next_block_0x13, Tzx.next_block_0x14,
              Tzx.next_block_0x15, Tzx.next_block_unsupported, Tzx.next_block_0x21,
              Tzx.next_block_0x24, Tzx.next_block_0x25, Tzx.next_block_0x28,
              Tzx.next_block_0x30, Tzx.next_block_0x32] at h
            try dsimp only at h
            repeat' split at h
            all_goals (try (dsimp only at h))
            all_goals (repeat' split at h)
            all_goals
              first
              | (simp only [Except.ok.injEq, Prod.mk.injEq] at h
                 obtain ⟨rfl, rfl⟩ := h
                 simp_all [stop20, stop2A])
              | (simp at h)
          rw [if_neg hcG1] at h
          by_cases hcG2 : listGet bs1 0 = 0x34 ∨ listGet bs1 0 = 0x35 ∨ listGet bs1 0 = 0x40
          · rw [if_pos hcG2] at h
            try simp only [Tzx.next_block_0x10, Tzx.next_block_0x11,
              Tzx.next_block_0x12, Tzx.next_block_0x13, Tzx.next_block_0x14,
              Tzx.next_block_0x15, Tzx.next_block_unsupported, Tzx.next_block_0x21,
              Tzx.next_block_0x24, Tzx.next_block_0x25, Tzx.next_block_0x28,
              Tzx.next_block_0x30, Tzx.next_block_0x32] at h
            try dsimp only at h
            repeat' split at h
            all_goals (try (dsimp only at h))
            all_goals (repeat' split at h)
            all_goals
              first
              | (simp only [Except.ok.injEq, Prod.mk.injEq] at h
                 obtain ⟨rfl, rfl⟩ := h
                 simp_all [stop20, stop2A])
              | (simp at h)
          rw [if_neg hcG2] at h
          rw [if_neg h20] at h
          by_cases hc21 : listGet bs1 0 = 0x21
          · rw [if_pos hc21] at h
            try simp only [Tzx.next_block_0x10, Tzx.next_block_0x11,
              Tzx.next_block_0x12, Tzx.next_block_0x13, Tzx.next_block_0x14,
              Tzx.next_block_0x15, Tzx.next_block_unsupported, Tzx.next_block_0x21,
              Tzx.next_block_0x24, Tzx.next_block_0x25, Tzx.next_block_0x28,
              Tzx.next_block_0x30, Tzx.next_block_0x32] at h
            try dsimp only at h
            repeat' split at h
            all_goals (try (dsimp only at h))
            all_goals (repeat' split at h)
            all_goals
              first
              | (simp only [Except.ok.injEq, Prod.mk.injEq] at h
                 obtain ⟨rfl, rfl⟩ := h
                 simp_all [stop20, stop2A])
              | (simp at h)
          rw [if_neg hc21] at h
          by_cases hc22 : listGet bs1 0 = 0x22
          · rw [if_pos hc22] at h
            try simp only [Tzx.next_block_0x10, Tzx.next_block_0x11,
              Tzx.next_block_0x12, Tzx.next_block_0x13, Tzx.next_block_0x14,
              Tzx.next_block_0x15, Tzx.next_block_unsupported, Tzx.next_block_0x21,
              Tzx.next_block_0x24, Tzx.next_block_0x25, Tzx.next_block_0x28,
              Tzx.next_block_0x30, Tzx.next_block_0x32] at h
            try dsimp only at h
            repeat' split at h
            all_goals (try (dsimp only at h))
            all_goals (repeat' split at h)
            all_goals
              first
              | (simp only [Except.ok.injEq, Prod.mk.injEq] at h
                 obtain ⟨rfl, rfl⟩ := h
                 simp_all [stop20, stop2A])
              | (simp at h)
          rw [if_neg hc22] at h
          by_cases hc24 : listGet bs1 0 = 0x24
          · rw [if_pos hc24] at h
            try simp only [Tzx.next_block_0x10, Tzx.next_block_0x11,
              Tzx.next_block_0x12, Tzx.next_block_0x13, Tzx.next_block_0x14,
              Tzx.next_block_0x15, Tzx.next_block_unsupported, Tzx.next_block_0x21,
              Tzx.next_block_0x24, Tzx.next_block_0x25, Tzx.next_block_0x28,
              Tzx.next_block_0x30, Tzx.next_block_0x32] at h
            try dsimp only at h
            repeat' split at h
            all_goals (try (dsimp only at h))
            all_goals (repeat' split at h)
            all_goals
              first
              | (simp only [Except.ok.injEq, Prod.mk.injEq] at h
                 obtain ⟨rfl, rfl⟩ := h
                 simp_all [stop20, stop2A])
              | (simp at h)
          rw [if_neg hc24] at h
          by_cases hc25 : listGet bs1 0 = 0x25
          · rw [if_pos hc25] at h
            try simp only [Tzx.next_block_0x10, Tzx.next_block_0x11,
              Tzx.next_block_0x12, Tzx.next_block_0x13, Tzx.next_block_0x14,
              Tzx.next_block_0x15, Tzx.next_block_unsupported, Tzx.next_block_0x21,
              Tzx.next_block_0x24, Tzx.next_block_0x25, Tzx.next_block_0x28,
              Tzx.next_block_0x30, Tzx.next_block_0x32] at h
            try dsimp only at h
            repeat' split at h
            all_goals (try (dsimp only at h))
            all_goals (repeat' split at h)
            all_goals
              first
              | (simp only [Except.ok.injEq, Prod.mk.injEq] at h
                 obtain ⟨rfl, rfl⟩ := h
                 simp_all [stop20, stop2A])
              | (simp at h)
          rw [if_neg hc25] at h
          by_cases hc28 : listGet bs1 0 = 0x28
          · rw [if_pos hc28] at h
            try simp only [Tzx.next_block_0x10, Tzx.next_block_0x11,
              Tzx.next_block_0x12, Tzx.next_block_0x13, Tzx.next_block_0x14,
              Tzx.next_block_0x15, Tzx.next_block_unsupported, Tzx.next_block_0x21,
              Tzx.next_block_0x24, Tzx.next_block_0x25, Tzx.next_block_0x28,
              Tzx.next_block_0x30, Tzx.next_block_0x32] at h
            try dsimp only at h
            repeat' split at h
            all_goals (try (dsimp only at h))
            all_goals (repeat' split at h)
            all_goals
              first
              | (simp only [Except.ok.injEq, Prod.mk.injEq] at h
                 obtain ⟨rfl, rfl⟩ := h
                 simp_all [stop20, stop2A])
              | (simp at h)
          rw [if_neg hc28] at h
          rw [if_neg h2A] at h
          by_cases hc30 : listGet bs1 0 = 0x30
          · rw [if_pos hc30] at h
            try simp only [Tzx.next_block_0x10, Tzx.next_block_0x11,
              Tzx.next_block_0x12, Tzx.next_block_0x13, Tzx.next_block_0x14,
              Tzx.next_block_0x15, Tzx.next_block_unsupported, Tzx.next_block_0x21,
              Tzx.next_block_0x24, Tzx.next_block_0x25, Tzx.next_block_0x28,
              Tzx.next_block_0x30, Tzx.next_block_0x32] at h
            try dsimp only at h
            repeat' split at h
            all_goals (try (dsimp only at h))
            all_goals (repeat' split at h)
            all_goals
              first
              | (simp only [Except.ok.injEq, Prod.mk.injEq] at h
                 obtain ⟨rfl, rfl⟩ := h
                 simp_all [stop20, stop2A])
              | (simp at h)
          rw [if_neg hc30] at h
          by_cases hc32 : listGet bs1 0 = 0x32
          · rw [if_pos hc32] at h
            try simp only [Tzx.next_block_0x10, Tzx.next_block_0x11,
              Tzx.next_block_0x12, Tzx.next_block_0x13, Tzx.next_block_0x14,
              Tzx.next_block_0x15, Tzx.next_block_unsupported, Tzx.next_block_0x21,
              Tzx.next_block_0x24, Tzx.next_block_0x25, Tzx.next_block_0x28,
              Tzx.next_block_0x30, Tzx.next_block_0x32] at h
            try dsimp only at h
            repeat' split at h
            all_goals (try (dsimp only at h))
            all_goals (repeat' split at h)
            all_goals
              first
              | (simp only [Except.ok.injEq, Prod.mk.injEq] at h
                 obtain ⟨rfl, rfl⟩ := h
                 simp_all [stop20, stop2A])
              | (simp at h)
          rw [if_neg hc32] at h
          try dsimp only at h
          all_goals
            first
            | (simp only [Except.ok.injEq, Prod.mk.injEq] at h
               obtain ⟨rfl, rfl⟩ := h
               simp_all [stop20, stop2A])
            | (simp at h)

/-- C2 (counterexample): a StandardSpeedData block whose payload read hits end
of stream makes `next_block` return `Err` (an I/O error) — the read failure is
not absorbed into `tape_ended`/`Ok(false)` as the claim states. -/
theorem c2_payload_read_failure_propagates_err :
    (mkEngine [0x10, 0xE8, 0x03, 0x01, 0x00]).next_block =
      Except.error TzxError.ioError := by
  decide

theorem c2_next_block_false_iff_witness :
    (false = false ↔
      ((mkEngine []).tape_ended = true ∨
        ({ mkEngine [] with tape_ended := true } : Tzx).tape_ended = true ∨
        stop20 (mkEngine []) ∨ stop2A (mkEngine []))) :=
  c2_next_block_false_iff (mkEngine []) false
    { mkEngine [] with tape_ended := true } rfl

set_option maxRecDepth 8000 in
/-- **C4-aux/C5.** The `next_block_byte` contract: with an active block of
size `n` the call returns `Ok None` when the tape has ended, when no block is
active, and when `block_bytes_read ≥ n` (exhaustion); when it serves a byte it
advances `block_bytes_read` by one and sets `bits_to_process_in_byte` to
`used_bits_in_last_byte` on the final byte of the block and to `8` on every
earlier byte; and when the read position has crossed the 128-byte window
(`buffer_offset + BUFFER_SIZE ≤ block_bytes_read`) it first refills the
buffer with `min (n - buffer_offset - BUFFER_SIZE) BUFFER_SIZE` fresh bytes
from the source and serves the first of them. -/
theorem c5_next_block_byte_contract (t : Tzx) :
    (t.tape_ended = true → t.next_block_byte = Except.ok (none, t)) ∧
    (t.current_block_size = none → t.next_block_byte = Except.ok (none, t)) ∧
    (∀ n, t.current_block_size = some n → n ≤ t.block_bytes_read →
      t.next_block_byte = Except.ok (none, t)) ∧
    (∀ n b t', t.current_block_size = some n →
      t.next_block_byte = Except.ok (some b, t') →
        t'.block_bytes_read = t.block_bytes_read + 1 ∧
        t'.bits_to_process_in_byte =
          (if n ≤ t.block_bytes_read + 1 then t.used_bits_in_last_byte else 8)) ∧
    (∀ n b t', t.current_block_size = some n →
      t.buffer_offset + BUFFER_SIZE ≤ t.block_bytes_read →
      t.next_block_byte = Except.ok (some b, t') →
        ∃ bs a,
          t.asset.read_exact (min (n - t.buffer_offset - BUFFER_SIZE) BUFFER_SIZE)
            = some (bs, a) ∧
          t'.asset = a ∧
          t'.buffer = writeBuffer t.buffer bs ∧
          t'.buffer_offset = t.buffer_offset + BUFFER_SIZE ∧
          b = listGet (writeBuffer t.buffer bs) 0) := by
  refine ⟨?_, ?_, ?_, ?_, ?_⟩
  · intro hte
    unfold Tzx.next_block_byte
    rw [if_pos hte]
  · intro hnone
    unfold Tzx.next_block_byte
    split
    · rfl
    · rw [hnone]
  · intro n hsz hle
    unfold Tzx.next_block_byte
    split
    · rfl
    · rw [hsz]
      dsimp only
      rw [if_pos hle]
  · intro n b t' hsz h
    unfold Tzx.next_block_byte at h
    split at h
    · simp at h
    · rw [hsz] at h
      dsimp only at h
      unfold Tzx.serve_block_byte at h
      repeat' split at h
      all_goals (try (dsimp only at h))
      all_goals (repeat' split at h)
      all_goals
        first
        | (simp only [Except.ok.injEq, Prod.mk.injEq, Option.some.injEq] at h
           obtain ⟨rfl, rfl⟩ := h
           simp_all)
        | (simp at h)
      all_goals (rw [if_neg (by omega)])
  · intro n b t' hsz hcross h
    unfold Tzx.next_block_byte at h
    split at h
    · simp at h
    · rw [hsz] at h
      dsimp only at h
      simp only [BUFFER_SIZE] at h hcross ⊢
      by_cases hex : n ≤ t.block_bytes_read
      · rw [if_pos hex] at h
        simp at h
      · rw [if_neg hex] at h
        rw [if_neg (by omega : ¬ t.block_bytes_read < t.buffer_offset)] at h
        try dsimp only at h
        rw [if_pos (by omega : 128 ≤ t.block_bytes_read - t.buffer_offset)] at h
        by_cases hpan : n < t.buffer_offset + 128
        · rw [if_pos hpan] at h
          simp at h
        · rw [if_neg hpan] at h
          rcases hre : t.asset.read_exact (min (n - t.buffer_offset - 128) 128)
            with _ | ⟨bs, a⟩ <;> rw [hre] at h
          · simp at h
          · refine ⟨bs, a, rfl, ?_⟩
            unfold Tzx.serve_block_byte at h
            dsimp only at h
            rw [if_neg hex] at h
            by_cases hlast : n ≤ t.block_bytes_read + 1 <;>
              [rw [if_pos hlast] at h; rw [if_neg hlast] at h] <;>
            · simp only [Except.ok.injEq, Prod.mk.injEq, Option.some.injEq] at h
              obtain ⟨rfl, rfl⟩ := h
              exact ⟨rfl, rfl, rfl, rfl⟩

theorem c5_next_block_byte_contract_witness :
    c5After.block_bytes_read = c5Engine.block_bytes_read + 1 ∧
    c5After.bits_to_process_in_byte =
      (if 2 ≤ c5Engine.block_bytes_read + 1 then c5Engine.used_bits_in_last_byte
       else 8) :=
  (c5_next_block_byte_contract c5Engine).2.2.2.1 2 0 c5After (by decide) (by decide)

theorem Runs.cast {t t2 : Tzx} {n c n2 c2 : Nat}
    (h : Runs t n c t2) (hn : n = n2) (hc : c = c2) : Runs t n2 c2 t2 :=
  hn ▸ hc ▸ h

theorem Runs.count {t t2 : Tzx} {n c : Nat} (h : Runs t n c t2) :
    ∀ f c2, Tzx.countBlockEdges f t2 = Except.ok c2 →
      Tzx.countBlockEdges (n + f) t = Except.ok (c + c2) := by
  induction h with
  | refl t => intro f c2 hf; simpa using hf
  | step hns htick hrest ih =>
    intro f c2 hf
    rename_i t t1 t3 e n c
    have hsh : n + 1 + f = (n + f) + 1 := by omega
    rw [hsh]
    unfold Tzx.countBlockEdges
    rw [if_neg hns, htick]
    dsimp only
    rw [ih f c2 hf]
    dsimp only
    have h3 : e + (c + c2) = e + c + c2 := by omega
    rw [h3]

theorem countBlockEdges_play (t : Tzx) (h : t.state = TapeState.Play) (f : Nat) :
    Tzx.countBlockEdges (f + 1) t = Except.ok 0 := by
  unfold Tzx.countBlockEdges
  rw [if_pos (Or.inl h)]

theorem tick_eq (t : Tzx) (hs : ¬ t.state = TapeState.Stop) (hd : 0 ≤ t.delay) :
    t.tick = Tzx.stepLoop 8 { t with delay := 0 } := by
  unfold Tzx.tick Tzx.process_clocks
  rw [if_neg hs]
  by_cases hp : 0 < t.delay
  · rw [if_pos hp]
    dsimp only
    rw [Int.toNat_of_nonneg hd, sub_self]
    norm_num
  · rw [if_neg hp]
    have h0 : t.delay = 0 := le_antisymm (not_lt.1 hp) hd
    dsimp only
    rw [if_neg (by rw [h0]; exact lt_irrefl 0)]
    have : ({ t with delay := 0 } : Tzx) = t := by rw [← h0]
    rw [this]

/-- `next_block_byte` at or past the end of the active block is an `Ok(None)`
no-op (the first exhaustion check of the source). -/
theorem nbb_exhausted (t : Tzx) (n : Nat) (hsz : t.current_block_size = some n)
    (hle : n ≤ t.block_bytes_read) :
    t.next_block_byte = Except.ok (none, t) := by
  unfold Tzx.next_block_byte
  split
  · rfl
  · rw [hsz]
    dsimp only
    rw [if_pos hle]

theorem stepLoop_pilot (f : Nat) (t : Tzx) (P : Nat)
    (hst : t.state = TapeState.Pilot (P + 1)) :
    Tzx.stepLoop (f + 1) t = Except.ok
      (if P = 0 then
        { t with curr_bit := !t.curr_bit,
                 delay := t.delay + (t.tape_timings.sync1_length : Int),
                 state := TapeState.Sync }
       else
        { t with curr_bit := !t.curr_bit,
                 delay := t.delay + (t.tape_timings.pilot_length : Int),
                 state := TapeState.Pilot P }, 1) := by
  unfold Tzx.stepLoop
  rw [hst]
  dsimp only
  rw [if_neg (Nat.succ_ne_zero P)]
  rw [Nat.add_sub_cancel]
  split <;> rfl

theorem stepLoop_sync (f : Nat) (t : Tzx) (hst : t.state = TapeState.Sync) :
    Tzx.stepLoop (f + 1) t = Except.ok
      ({ t with curr_bit := !t.curr_bit,
                delay := t.delay + (t.tape_timings.sync2_length : Int),
                state := TapeState.NextBit 0x80 }, 1) := by
  unfold Tzx.stepLoop
  rw [hst]

theorem stepLoop_nextbit (f : Nat) (t : Tzx) (mask : Nat)
    (hst : t.state = TapeState.NextBit mask) :
    Tzx.stepLoop (f + 1) t = Except.ok
      ({ t with curr_bit := !t.curr_bit,
                delay := t.delay +
                  ((if t.curr_byte &&& mask = 0 then t.tape_timings.bit_0_length
                    else t.tape_timings.bit_1_length : Nat) : Int),
                state := TapeState.BitHalf
                  (if t.curr_byte &&& mask = 0 then t.tape_timings.bit_0_length
                   else t.tape_timings.bit_1_length) mask }, 1) := by
  unfold Tzx.stepLoop
  rw [hst]
  dsimp only
  split <;> simp_all

theorem stepLoop_bithalf (f : Nat) (t : Tzx) (w mask b : Nat)
    (hst : t.state = TapeState.BitHalf w mask)
    (hb : t.bits_to_process_in_byte = b + 1) :
    Tzx.stepLoop (f + 1) t = Except.ok
      ({ t with curr_bit := !t.curr_bit,
                delay := t.delay + (w : Int),
                bits_to_process_in_byte := b,
                state := if mask >>> 1 = 0 ∨ b = 0 then TapeState.NextByte false
                         else TapeState.NextBit (mask >>> 1) }, 1) := by
  unfold Tzx.stepLoop
  rw [hst]
  dsimp only
  rw [hb]
  rw [if_neg (Nat.succ_ne_zero b)]
  rw [Nat.add_sub_cancel]

theorem stepLoop_nextbyte_some (f : Nat) (t t1 : Tzx) (y : Nat)
    (hst : t.state = TapeState.NextByte false)
    (hserve : t.next_block_byte = Except.ok (some y, t1)) :
    Tzx.stepLoop (f + 1) t =
      Tzx.stepLoop f { t1 with curr_byte := y, state := TapeState.NextBit 0x80 } := by
  conv_lhs => rw [Tzx.stepLoop]
  rw [hst]
  dsimp only
  rw [hserve]
  dsimp only
  simp

theorem stepLoop_nextbyte_none (f : Nat) (t t1 : Tzx)
    (hst : t.state = TapeState.NextByte false)
    (hserve : t.next_block_byte = Except.ok (none, t1)) :
    Tzx.stepLoop (f + 1) t = Tzx.stepLoop f { t1 with state := TapeState.Pause } := by
  conv_lhs => rw [Tzx.stepLoop]
  rw [hst]
  dsimp only
  rw [hserve]

theorem stepLoop_pause_pos (f : Nat) (t : Tzx)
    (hst : t.state = TapeState.Pause)
    (hpos : 0 < t.delay + ((t.tape_timings.pause_length * 3500 : Nat) : Int)) :
    Tzx.stepLoop (f + 1) t = Except.ok
      ({ t with delay := t.delay + ((t.tape_timings.pause_length * 3500 : Nat) : Int),
                state := TapeState.Play,
                curr_bit := !t.curr_bit }, 1) := by
  unfold Tzx.stepLoop
  rw [hst]
  dsimp only
  rw [if_pos hpos]

theorem listGet_take {l : List Nat} {k n : Nat} (h : k < n) :
    listGet (l.take n) k = listGet l k := by
  unfold listGet
  rw [List.getD_eq_getElem?_getD, List.getD_eq_getElem?_getD,
    List.getElem?_take_of_lt h]

theorem listGet_drop (l : List Nat) (i k : Nat) :
    listGet (l.drop i) k = listGet l (i + k) := by
  unfold listGet
  rw [List.getD_eq_getElem?_getD, List.getD_eq_getElem?_getD, List.getElem?_drop]

theorem listGet_append_left {l l2 : List Nat} {k : Nat} (h : k < l.length) :
    listGet (l ++ l2) k = listGet l k := by
  unfold listGet
  rw [List.getD_eq_getElem?_getD, List.getD_eq_getElem?_getD,
    List.getElem?_append, if_pos h]

set_option maxRecDepth 8000 in
/-- Serving one in-range payload byte through `next_block_byte` under the
streaming invariant: the byte is `payload[i]`, the invariant moves to `i+1`,
the bit budget follows the final-byte rule, and the playback fields are
untouched. -/
theorem serve_next (payload : List Nat) (u p : Nat) (tone : Option Nat)
    (t : Tzx) (i : Nat)
    (inv : StdBlockLoaded payload u p tone t i) (hi : i < payload.length) :
    ∃ t1, t.next_block_byte = Except.ok (some (listGet payload i), t1) ∧
      StdBlockLoaded payload u p tone t1 (i + 1) ∧
      t1.bits_to_process_in_byte = (if payload.length ≤ i + 1 then u else 8) ∧
      t1.state = t.state ∧ t1.curr_bit = t.curr_bit ∧ t1.curr_byte = t.curr_byte ∧
      t1.delay = t.delay ∧ t1.current_block_id = t.current_block_id := by
  obtain ⟨hte, hsz, hbbr, hu, htim, hoff, hwin, hasset⟩ := inv
  unfold Tzx.next_block_byte
  rw [hte, hsz, hbbr]
  dsimp only
  rw [if_neg (Bool.false_ne_true), if_neg (by omega : ¬ payload.length ≤ i)]
  rw [if_neg (by omega : ¬ i < t.buffer_offset)]
  simp only [BUFFER_SIZE]
  by_cases hcross : 128 ≤ i - t.buffer_offset
  · -- window crossing: `i = buffer_offset + 128`, refill then serve position 0
    have hieq : i = t.buffer_offset + 128 := by omega
    rw [if_pos hcross]
    rw [if_neg (by omega : ¬ payload.length < t.buffer_offset + 128)]
    have hlen2 : payload.length - t.buffer_offset - 128 = payload.length - i := by
      omega
    rw [hlen2]
    rw [← hieq] at hasset
    have hassetlen := congrArg List.length hasset
    simp only [List.length_drop, List.length_take] at hassetlen
    have hdlen : payload.length - i ≤ t.asset.data.length - t.asset.pos := by
      omega
    have hnle : min (payload.length - i) 128 ≤ payload.length - i :=
      Nat.min_le_left _ _
    unfold Asset.read_exact
    rw [if_pos (by omega :
      t.asset.pos + min (payload.length - i) 128 ≤ t.asset.data.length)]
    try dsimp only
    unfold Tzx.serve_block_byte
    dsimp only
    try rw [hbbr]
    rw [if_neg (by omega : ¬ payload.length ≤ i)]
    try dsimp only
    have hbslen :
        ((t.asset.data.drop t.asset.pos).take (min (payload.length - i) 128)).length
          = min (payload.length - i) 128 := by
      simp only [List.length_take, List.length_drop]
      omega
    have hbget : ∀ k, k < min (payload.length - i) 128 →
        listGet (writeBuffer t.buffer
          ((t.asset.data.drop t.asset.pos).take (min (payload.length - i) 128))) k
          = listGet payload (i + k) := by
      intro k hk
      unfold writeBuffer
      rw [listGet_append_left (by rw [hbslen]; exact hk)]
      rw [listGet_take hk, ← listGet_drop, hasset, listGet_take (by omega)]
    have hbyte0 := hbget 0 (by omega)
    rw [Nat.add_zero] at hbyte0
    rw [hbyte0]
    by_cases hlast : payload.length ≤ i + 1
    · rw [if_pos hlast]
      refine ⟨_, rfl, ⟨rfl, rfl, rfl, hu, htim, by dsimp only; omega, ?_, ?_⟩,
        by dsimp only; rw [if_pos hlast, hu], rfl, rfl, rfl, rfl, rfl⟩
      · intro k h1 h2
        dsimp only at h1 ⊢
        rw [hbget k (by omega)]
        congr 1
        omega
      · dsimp only
        have hz : payload.length - (t.buffer_offset + 128) - 128 = 0 := by omega
        rw [hz, List.take_zero, List.drop_eq_nil_of_le (by omega)]
    · rw [if_neg hlast]
      refine ⟨_, rfl, ⟨rfl, rfl, rfl, hu, htim, by dsimp only; omega, ?_, ?_⟩,
        by dsimp only; rw [if_neg hlast], rfl, rfl, rfl, rfl, rfl⟩
      · intro k h1 h2
        dsimp only at h1 ⊢
        rw [hbget k (by omega)]
        congr 1
        omega
      · dsimp only
        by_cases hrest : payload.length - i ≤ 128
        · have hz : payload.length - (t.buffer_offset + 128) - 128 = 0 := by omega
          rw [hz, List.take_zero, List.drop_eq_nil_of_le (by omega)]
        · have hmin : min (payload.length - i) 128 = 128 := by omega
          rw [hmin]
          have hdd := congrArg (List.drop 128) hasset
          rw [List.drop_drop, List.drop_take, List.drop_drop] at hdd
          have he1 : i + 128 = t.buffer_offset + 128 + 128 := by omega
          have he2 : payload.length - t.buffer_offset - 128 - 128 =
              payload.length - (t.buffer_offset + 128) - 128 := by omega
          rw [he1, he2] at hdd
          exact hdd
  · -- inside the window: direct read at `i - buffer_offset`
    rw [if_neg hcross]
    unfold Tzx.serve_block_byte
    try rw [hbbr]
    rw [if_neg (by omega : ¬ payload.length ≤ i)]
    dsimp only
    have hwid : t.buffer_offset + (i - t.buffer_offset) = i := by omega
    have hbyte : listGet t.buffer (i - t.buffer_offset) = listGet payload i := by
      have h1 := hwin (i - t.buffer_offset) (by omega) (by omega)
      rw [hwid] at h1
      exact h1
    rw [hbyte]
    by_cases hlast : payload.length ≤ i + 1
    · rw [if_pos hlast]
      refine ⟨_, rfl, ⟨hte, hsz, rfl, hu, htim, by dsimp only; omega, ?_, ?_⟩,
        by dsimp only; rw [if_pos hlast, hu], rfl, rfl, rfl, rfl, rfl⟩
      · intro k h1 h2
        dsimp only at h1 ⊢
        exact hwin k h1 h2
      · dsimp only
        exact hasset
    · rw [if_neg hlast]
      refine ⟨_, rfl, ⟨hte, hsz, rfl, hu, htim, by dsimp only; omega, ?_, ?_⟩,
        by dsimp only; rw [if_neg hlast], rfl, rfl, rfl, rfl, rfl⟩
      · intro k h1 h2
        dsimp only at h1 ⊢
        exact hwin k h1 h2
      · dsimp only
        exact hasset

theorem StdBlockLoaded.congr {payload : List Nat} {u p : Nat} {tone : Option Nat}
    {t t2 : Tzx} {i : Nat} (inv : StdBlockLoaded payload u p tone t i)
    (h1 : t2.tape_ended = t.tape_ended)
    (h2 : t2.current_block_size = t.current_block_size)
    (h3 : t2.block_bytes_read = t.block_bytes_read)
    (h4 : t2.used_bits_in_last_byte = t.used_bits_in_last_byte)
    (h5 : t2.tape_timings = t.tape_timings)
    (h6 : t2.buffer_offset = t.buffer_offset)
    (h7 : t2.buffer = t.buffer)
    (h8 : t2.asset = t.asset) :
    StdBlockLoaded payload u p tone t2 i := by
  unfold StdBlockLoaded at inv ⊢
  rw [h1, h2, h3, h4, h5, h6, h7, h8]
  exact inv

theorem Runs.trans {t t2 t3 : Tzx} {n c n2 c2 : Nat}
    (h1 : Runs t n c t2) (h2 : Runs t2 n2 c2 t3) :
    Runs t (n + n2) (c + c2) t3 := by
  revert h2
  induction h1 with
  | refl t => intro h2; exact h2.cast (by omega) (by omega)
  | step hns htick hrest ih =>
    intro h2
    exact (Runs.step hns htick (ih h2)).cast (by omega) (by omega)

/-- The pilot tone: from `Pilot (n+1)`, `n+1` ticks emit `n+1` edges and leave
the machine in `Sync` with the sync1 half-pulse scheduled. -/
theorem runs_pilot (payload : List Nat) (u p : Nat) (tone : Option Nat) (i : Nat) :
    ∀ n (t : Tzx), StdBlockLoaded payload u p tone t i →
      t.state = TapeState.Pilot (n + 1) → 0 ≤ t.delay →
      ∃ t2, Runs t (n + 1) (n + 1) t2 ∧ StdBlockLoaded payload u p tone t2 i ∧
        t2.state = TapeState.Sync ∧ 0 ≤ t2.delay ∧
        t2.bits_to_process_in_byte = t.bits_to_process_in_byte ∧
        t2.curr_byte = t.curr_byte := by
  intro n
  induction n with
  | zero =>
    intro t inv hst hd
    have hns : ¬(t.state = TapeState.Play ∨ t.state = TapeState.Stop) := by
      rw [hst]; simp
    have htick := tick_eq t (by rw [hst]; simp) hd
    rw [show (8 : Nat) = 7 + 1 from rfl] at htick
    rw [stepLoop_pilot 7 { t with delay := 0 } 0 hst] at htick
    rw [if_pos rfl] at htick
    exact ⟨_, (Runs.step hns htick (Runs.refl _)).cast (by omega) (by omega),
      inv.congr rfl rfl rfl rfl rfl rfl rfl rfl, rfl,
      by dsimp only; positivity, rfl, rfl⟩
  | succ m ih =>
    intro t inv hst hd
    have hns : ¬(t.state = TapeState.Play ∨ t.state = TapeState.Stop) := by
      rw [hst]; simp
    have htick := tick_eq t (by rw [hst]; simp) hd
    rw [show (8 : Nat) = 7 + 1 from rfl] at htick
    rw [stepLoop_pilot 7 { t with delay := 0 } (m + 1) hst] at htick
    rw [if_neg (Nat.succ_ne_zero m)] at htick
    have hstep : ∃ T1, t.tick = Except.ok (T1, 1) ∧
        T1.state = TapeState.Pilot (m + 1) ∧ 0 ≤ T1.delay ∧
        StdBlockLoaded payload u p tone T1 i ∧
        T1.bits_to_process_in_byte = t.bits_to_process_in_byte ∧
        T1.curr_byte = t.curr_byte :=
      ⟨_, htick, rfl, by dsimp only; positivity,
        inv.congr rfl rfl rfl rfl rfl rfl rfl rfl, rfl, rfl⟩
    obtain ⟨T1, htick1, hst1, hd1, hinv1, hb1, hc1⟩ := hstep
    obtain ⟨t2, hruns, hinv2, hst2, hd2, hbits2, hcb2⟩ := ih T1 hinv1 hst1 hd1
    exact ⟨t2, (Runs.step hns htick1 hruns).cast (by omega) (by omega),
      hinv2, hst2, hd2, hbits2.trans hb1, hcb2.trans hc1⟩

theorem stepLoop_process_std (f : Nat) (t ts : Tzx) (y : Nat)
    (hst : t.state = TapeState.Process)
    (hid : t.current_block_id = some TzxBlockId.StandardSpeedData)
    (hserve : t.next_block_byte = Except.ok (some y, ts)) :
    Tzx.stepLoop (f + 1) t = Except.ok
      ({ ts with curr_byte := y,
                 delay := ts.delay + (ts.tape_timings.pilot_length : Int),
                 state := TapeState.Pilot
                   (if y = 0 then ts.tape_timings.pilot_pulses_header
                    else ts.tape_timings.pilot_pulses_data) },
       if ts.curr_bit = t.curr_bit then 0 else 1) := by
  unfold Tzx.stepLoop
  rw [hst]
  dsimp only
  unfold Tzx.process_current_block
  rw [hid]
  dsimp only
  rw [hserve]

/-- The `Process` tick on a loaded StandardSpeedData block: the dispatcher
serves the first payload byte, schedules the pilot tone (8063 pulses for a
header byte `0x00`, 3223 otherwise) and emits no edge. -/
theorem tick_process (payload : List Nat) (u p : Nat) (tone : Option Nat) (t : Tzx)
    (inv : StdBlockLoaded payload u p tone t 0)
    (hst : t.state = TapeState.Process)
    (hid : t.current_block_id = some TzxBlockId.StandardSpeedData)
    (hd : 0 ≤ t.delay) (hlen0 : 0 < payload.length) :
    ∃ t1, t.tick = Except.ok (t1, 0) ∧
      StdBlockLoaded payload u p tone t1 1 ∧
      t1.state = TapeState.Pilot (if listGet payload 0 = 0 then 8063 else 3223) ∧
      0 ≤ t1.delay ∧
      t1.bits_to_process_in_byte = (if payload.length ≤ 1 then u else 8) ∧
      t1.curr_byte = listGet payload 0 := by
  obtain ⟨ts, hserve, hinv1, hbits1, hstp, hcbp, hcybp, hdelp, hidp⟩ :=
    serve_next payload u p tone { t with delay := 0 } 0
      (inv.congr rfl rfl rfl rfl rfl rfl rfl rfl) hlen0
  have htim1 := hinv1.2.2.2.2.1
  have hd0 : ts.delay = 0 := hdelp
  have hcb0 : ts.curr_bit = t.curr_bit := hcbp
  have htick := tick_eq t (by rw [hst]; simp) hd
  rw [show (8 : Nat) = 7 + 1 from rfl] at htick
  rw [stepLoop_process_std 7 { t with delay := 0 } ts (listGet payload 0)
    hst hid hserve] at htick
  dsimp only at htick
  rw [if_pos hcb0] at htick
  refine ⟨_, htick, ?_, ?_, ?_, ?_, rfl⟩
  · exact hinv1.congr rfl rfl rfl rfl rfl rfl rfl rfl
  · dsimp only
    rw [htim1]
    rfl
  · dsimp only
    rw [hd0]
    positivity
  · exact hbits1

/-- Processing the remaining `b+1` bits of the current byte from a `NextBit`
state: `2*(b+1)` ticks emit `2*(b+1)` edges and end in `NextByte false`. -/
theorem runs_bits (payload : List Nat) (u p : Nat) (tone : Option Nat) (i : Nat) :
    ∀ b j (t : Tzx), StdBlockLoaded payload u p tone t i →
      t.state = TapeState.NextBit (2 ^ j) →
      t.bits_to_process_in_byte = b + 1 → b ≤ j → j ≤ 7 → 0 ≤ t.delay →
      ∃ t2, Runs t (2 * (b + 1)) (2 * (b + 1)) t2 ∧
        StdBlockLoaded payload u p tone t2 i ∧
        t2.state = TapeState.NextByte false ∧ 0 ≤ t2.delay := by
  intro b
  induction b with
  | zero =>
    intro j t inv hst hb hbj hj7 hd
    have hns : ¬(t.state = TapeState.Play ∨ t.state = TapeState.Stop) := by
      rw [hst]; simp
    have htick := tick_eq t (by rw [hst]; simp) hd
    rw [show (8 : Nat) = 7 + 1 from rfl] at htick
    rw [stepLoop_nextbit 7 { t with delay := 0 } (2 ^ j) hst] at htick
    obtain ⟨T1, w, htick1, hst1, hb1, hd1, hinv1⟩ :
        ∃ T1 w, t.tick = Except.ok (T1, 1) ∧
          T1.state = TapeState.BitHalf w (2 ^ j) ∧
          T1.bits_to_process_in_byte = t.bits_to_process_in_byte ∧
          0 ≤ T1.delay ∧ StdBlockLoaded payload u p tone T1 i :=
      ⟨_, _, htick, rfl, rfl, by dsimp only; positivity,
        inv.congr rfl rfl rfl rfl rfl rfl rfl rfl⟩
    have hns1 : ¬(T1.state = TapeState.Play ∨ T1.state = TapeState.Stop) := by
      rw [hst1]; simp
    have htick2 := tick_eq T1 (by rw [hst1]; simp) hd1
    rw [show (8 : Nat) = 7 + 1 from rfl] at htick2
    rw [stepLoop_bithalf 7 { T1 with delay := 0 } w (2 ^ j) 0 hst1
      (hb1.trans hb)] at htick2
    rw [if_pos (Or.inr rfl)] at htick2
    exact ⟨_,
      (Runs.step hns htick1 (Runs.step hns1 htick2 (Runs.refl _))).cast
        (by omega) (by omega),
      hinv1.congr rfl rfl rfl rfl rfl rfl rfl rfl, rfl,
      by dsimp only; positivity⟩
  | succ m ih =>
    intro j t inv hst hb hbj hj7 hd
    have hj1 : 1 ≤ j := by omega
    have hshift : (2 : Nat) ^ j >>> 1 = 2 ^ (j - 1) := by
      conv_lhs => rw [show j = (j - 1) + 1 from by omega]
      rw [pow_succ, Nat.shiftRight_one, Nat.mul_div_cancel _ (by norm_num)]
    have hns : ¬(t.state = TapeState.Play ∨ t.state = TapeState.Stop) := by
      rw [hst]; simp
    have htick := tick_eq t (by rw [hst]; simp) hd
    rw [show (8 : Nat) = 7 + 1 from rfl] at htick
    rw [stepLoop_nextbit 7 { t with delay := 0 } (2 ^ j) hst] at htick
    obtain ⟨T1, w, htick1, hst1, hb1, hd1, hinv1⟩ :
        ∃ T1 w, t.tick = Except.ok (T1, 1) ∧
          T1.state = TapeState.BitHalf w (2 ^ j) ∧
          T1.bits_to_process_in_byte = t.bits_to_process_in_byte ∧
          0 ≤ T1.delay ∧ StdBlockLoaded payload u p tone T1 i :=
      ⟨_, _, htick, rfl, rfl, by dsimp only; positivity,
        inv.congr rfl rfl rfl rfl rfl rfl rfl rfl⟩
    have hns1 : ¬(T1.state = TapeState.Play ∨ T1.state = TapeState.Stop) := by
      rw [hst1]; simp
    have htick2 := tick_eq T1 (by rw [hst1]; simp) hd1
    rw [show (8 : Nat) = 7 + 1 from rfl] at htick2
    rw [stepLoop_bithalf 7 { T1 with delay := 0 } w (2 ^ j) (m + 1) hst1
      (hb1.trans hb)] at htick2
    rw [hshift] at htick2
    rw [if_neg (by push_neg; exact ⟨pow_ne_zero _ (by norm_num), Nat.succ_ne_zero m⟩)] at htick2
    obtain ⟨T2, htick2b, hst2, hb2, hd2, hinv2⟩ :
        ∃ T2, T1.tick = Except.ok (T2, 1) ∧
          T2.state = TapeState.NextBit (2 ^ (j - 1)) ∧
          T2.bits_to_process_in_byte = m + 1 ∧
          0 ≤ T2.delay ∧ StdBlockLoaded payload u p tone T2 i :=
      ⟨_, htick2, rfl, rfl, by dsimp only; positivity,
        hinv1.congr rfl rfl rfl rfl rfl rfl rfl rfl⟩
    obtain ⟨t3, hruns3, hinv3, hst3, hd3⟩ :=
      ih (j - 1) T2 hinv2 hst2 hb2 (by omega) (by omega) hd2
    exact ⟨t3,
      (Runs.step hns htick1 (Runs.step hns1 htick2b hruns3)).cast
        (by omega) (by omega),
      hinv3, hst3, hd3⟩

/-- Like `runs_bits`, entering mid-bit at a `BitHalf` state: `2*b+1` ticks and
edges to `NextByte false`. -/
theorem runs_half (payload : List Nat) (u p : Nat) (tone : Option Nat) (i : Nat)
    (b j : Nat) (t : Tzx) (w : Nat)
    (inv : StdBlockLoaded payload u p tone t i)
    (hst : t.state = TapeState.BitHalf w (2 ^ j))
    (hb : t.bits_to_process_in_byte = b + 1)
    (hbj : b ≤ j) (hj7 : j ≤ 7) (hd : 0 ≤ t.delay) :
    ∃ t2, Runs t (2 * b + 1) (2 * b + 1) t2 ∧
      StdBlockLoaded payload u p tone t2 i ∧
      t2.state = TapeState.NextByte false ∧ 0 ≤ t2.delay := by
  have hns : ¬(t.state = TapeState.Play ∨ t.state = TapeState.Stop) := by
    rw [hst]; simp
  have htick := tick_eq t (by rw [hst]; simp) hd
  rw [show (8 : Nat) = 7 + 1 from rfl] at htick
  rw [stepLoop_bithalf 7 { t with delay := 0 } w (2 ^ j) b hst hb] at htick
  by_cases hb0 : b = 0
  · subst hb0
    rw [if_pos (Or.inr rfl)] at htick
    exact ⟨_, (Runs.step hns htick (Runs.refl _)).cast (by omega) (by omega),
      inv.congr rfl rfl rfl rfl rfl rfl rfl rfl, rfl,
      by dsimp only; positivity⟩
  · have hj1 : 1 ≤ j := by omega
    have hshift : (2 : Nat) ^ j >>> 1 = 2 ^ (j - 1) := by
      conv_lhs => rw [show j = (j - 1) + 1 from by omega]
      rw [pow_succ, Nat.shiftRight_one, Nat.mul_div_cancel _ (by norm_num)]
    rw [hshift] at htick
    rw [if_neg (by push_neg; exact ⟨pow_ne_zero _ (by norm_num), hb0⟩)] at htick
    obtain ⟨T1, htick1, hst1, hb1, hd1, hinv1⟩ :
        ∃ T1, t.tick = Except.ok (T1, 1) ∧
          T1.state = TapeState.NextBit (2 ^ (j - 1)) ∧
          T1.bits_to_process_in_byte = b ∧
          0 ≤ T1.delay ∧ StdBlockLoaded payload u p tone T1 i :=
      ⟨_, htick, rfl, rfl, by dsimp only; positivity,
        inv.congr rfl rfl rfl rfl rfl rfl rfl rfl⟩
    obtain ⟨t2, hruns2, hinv2, hst2, hd2⟩ :=
      runs_bits payload u p tone i (b - 1) (j - 1) T1 hinv1 hst1
        (by rw [hb1]; omega) (by omega) (by omega) hd1
    exact ⟨t2, (Runs.step hns htick1 hruns2).cast (by omega) (by omega),
      hinv2, hst2, hd2⟩

/-- Streaming the rest of the block from a `NextByte` boundary with `i` bytes
already consumed and `k` left: the run ends in `Play` after the trailing
`Pause` edge, having emitted `16*(k-1) + 2*u + 1` edges (or the single pause
edge when the block is exhausted). -/
theorem runs_block (payload : List Nat) (u p : Nat) (tone : Option Nat)
    (hu1 : 1 ≤ u) (hu8 : u ≤ 8) (hp : 1 ≤ p) :
    ∀ k i (t : Tzx), i + k = payload.length → 1 ≤ i →
      StdBlockLoaded payload u p tone t i →
      t.state = TapeState.NextByte false → 0 ≤ t.delay →
      ∃ t2, Runs t (if k = 0 then 1 else 16 * (k - 1) + 2 * u + 1)
          (if k = 0 then 1 else 16 * (k - 1) + 2 * u + 1) t2 ∧
        t2.state = TapeState.Play := by
  intro k
  induction k with
  | zero =>
    intro i t hik hi1 inv hst hd
    have hns : ¬(t.state = TapeState.Play ∨ t.state = TapeState.Stop) := by
      rw [hst]; simp
    have hsz := inv.2.1
    have hbbr := inv.2.2.1
    have htim := inv.2.2.2.2.1
    have hnbb : ({ t with delay := 0 } : Tzx).next_block_byte =
        Except.ok (none, { t with delay := 0 }) :=
      nbb_exhausted _ payload.length hsz (by dsimp only; omega)
    have htick := tick_eq t (by rw [hst]; simp) hd
    rw [show (8 : Nat) = 7 + 1 from rfl] at htick
    rw [stepLoop_nextbyte_none 7 { t with delay := 0 } { t with delay := 0 }
      hst hnbb] at htick
    obtain ⟨TP, hTP, hTPst, hTPd, hTPtim⟩ :
        ∃ TP, t.tick = Tzx.stepLoop 7 TP ∧ TP.state = TapeState.Pause ∧
          TP.delay = 0 ∧ TP.tape_timings = t.tape_timings :=
      ⟨_, htick, rfl, rfl, rfl⟩
    rw [show (7 : Nat) = 6 + 1 from rfl] at hTP
    rw [stepLoop_pause_pos 6 TP hTPst
      (by rw [hTPd, hTPtim, htim]
          show (0 : Int) < 0 + ((p * 3500 : Nat) : Int)
          omega)] at hTP
    rw [if_pos rfl]
    exact ⟨_, (Runs.step hns hTP (Runs.refl _)).cast (by omega) (by omega), rfl⟩
  | succ m ih =>
    intro i t hik hi1 inv hst hd
    rw [if_neg (Nat.succ_ne_zero m)]
    have hns : ¬(t.state = TapeState.Play ∨ t.state = TapeState.Stop) := by
      rw [hst]; simp
    have hi : i < payload.length := by omega
    obtain ⟨t1, hserve, hinv1, hbits1, hst1, hcb1, hcby1, hdel1, hid1⟩ :=
      serve_next payload u p tone { t with delay := 0 } i
        (inv.congr rfl rfl rfl rfl rfl rfl rfl rfl) hi
    have hd10 : t1.delay = 0 := hdel1
    have htick := tick_eq t (by rw [hst]; simp) hd
    rw [show (8 : Nat) = 7 + 1 from rfl] at htick
    rw [stepLoop_nextbyte_some 7 { t with delay := 0 } t1 (listGet payload i)
      hst hserve] at htick
    rw [show (7 : Nat) = 6 + 1 from rfl] at htick
    obtain ⟨NB, hNB, hNBst, hNBbits, hNBd, hNBinv⟩ :
        ∃ NB, t.tick = Tzx.stepLoop (6 + 1) NB ∧
          NB.state = TapeState.NextBit 128 ∧
          NB.bits_to_process_in_byte = t1.bits_to_process_in_byte ∧
          NB.delay = 0 ∧ StdBlockLoaded payload u p tone NB (i + 1) :=
      ⟨_, htick, rfl, rfl, hd10, hinv1.congr rfl rfl rfl rfl rfl rfl rfl rfl⟩
    rw [stepLoop_nextbit 6 NB 128 hNBst] at hNB
    obtain ⟨BH, w, hBH, hBHst, hBHbits, hBHd, hBHinv⟩ :
        ∃ BH w, t.tick = Except.ok (BH, 1) ∧
          BH.state = TapeState.BitHalf w (2 ^ 7) ∧
          BH.bits_to_process_in_byte = t1.bits_to_process_in_byte ∧
          0 ≤ BH.delay ∧ StdBlockLoaded payload u p tone BH (i + 1) :=
      ⟨_, _, hNB, rfl, hNBbits, by dsimp only; rw [hNBd]; positivity,
        hNBinv.congr rfl rfl rfl rfl rfl rfl rfl rfl⟩
    have hBb : BH.bits_to_process_in_byte =
        (if payload.length ≤ i + 1 then u else 8) := hBHbits.trans hbits1
    by_cases hm0 : m = 0
    · subst hm0
      have hBbu : BH.bits_to_process_in_byte = (u - 1) + 1 := by
        rw [hBb, if_pos (by omega)]
        omega
      obtain ⟨t3, hruns3, hinv3, hst3, hd3⟩ :=
        runs_half payload u p tone (i + 1) (u - 1) 7 BH w hBHinv hBHst hBbu
          (by omega) (by omega) hBHd
      obtain ⟨t4, hruns4, hst4⟩ := ih (i + 1) t3 (by omega) (by omega) hinv3 hst3 hd3
      have hruns4b : Runs t3 1 1 t4 := hruns4.cast (by norm_num) (by norm_num)
      exact ⟨t4,
        (Runs.step hns hBH (hruns3.trans hruns4b)).cast (by omega) (by omega),
        hst4⟩
    · have hBb8 : BH.bits_to_process_in_byte = 7 + 1 := by
        rw [hBb, if_neg (by omega)]
      obtain ⟨t3, hruns3, hinv3, hst3, hd3⟩ :=
        runs_half payload u p tone (i + 1) 7 7 BH w hBHinv hBHst hBb8
          (by omega) (by omega) hBHd
      obtain ⟨t4, hruns4, hst4⟩ := ih (i + 1) t3 (by omega) (by omega) hinv3 hst3 hd3
      have hruns4b : Runs t3 (16 * (m - 1) + 2 * u + 1) (16 * (m - 1) + 2 * u + 1) t4 :=
        hruns4.cast (if_neg hm0) (if_neg hm0)
      exact ⟨t4,
        (Runs.step hns hBH (hruns3.trans hruns4b)).cast (by omega) (by omega),
        hst4⟩

/-- Playing a loaded StandardSpeedData block from the start of its pilot tone
(`P` pulses scheduled, first payload byte already served): the machine reaches
`Play`, emitting `P` pilot edges, 1 sync edge, `2*(8*(size-1)+u)` data edges
and the final pause edge. -/
theorem c4_aux (payload : List Nat) (u p P : Nat) (tone : Option Nat)
    (t1 : Tzx) (hinv1 : StdBlockLoaded payload u p tone t1 1)
    (hst1 : t1.state = TapeState.Pilot P) (hP1 : 1 ≤ P)
    (hd1 : 0 ≤ t1.delay)
    (hbits1 : t1.bits_to_process_in_byte = (if payload.length ≤ 1 then u else 8))
    (hu1 : 1 ≤ u) (hu8 : u ≤ 8) (hp : 1 ≤ p) (hlen0 : 0 < payload.length) :
    ∃ t4, Runs t1 (P + 1 + 2 * (8 * (payload.length - 1) + u) + 1)
        (P + 1 + 2 * (8 * (payload.length - 1) + u) + 1) t4 ∧
      t4.state = TapeState.Play := by
  obtain ⟨t2, hrunsP, hinv2, hst2, hd2, hbits2, hcby2⟩ :=
    runs_pilot payload u p tone 1 (P - 1) t1 hinv1
      (by rw [hst1]; congr 1; omega) hd1
  have hnsS : ¬(t2.state = TapeState.Play ∨ t2.state = TapeState.Stop) := by
    rw [hst2]; simp
  have htickS := tick_eq t2 (by rw [hst2]; simp) hd2
  rw [show (8 : Nat) = 7 + 1 from rfl] at htickS
  rw [stepLoop_sync 7 { t2 with delay := 0 } hst2] at htickS
  obtain ⟨SY, htickS2, hstSY, hbSY, hdSY, hinvSY⟩ :
      ∃ SY, t2.tick = Except.ok (SY, 1) ∧
        SY.state = TapeState.NextBit (2 ^ 7) ∧
        SY.bits_to_process_in_byte = t2.bits_to_process_in_byte ∧
        0 ≤ SY.delay ∧ StdBlockLoaded payload u p tone SY 1 :=
    ⟨_, htickS, rfl, rfl, by dsimp only; positivity,
      hinv2.congr rfl rfl rfl rfl rfl rfl rfl rfl⟩
  have hbSY2 : SY.bits_to_process_in_byte =
      (if payload.length ≤ 1 then u else 8) :=
    hbSY.trans (hbits2.trans hbits1)
  by_cases hone : payload.length ≤ 1
  · have hbu : SY.bits_to_process_in_byte = (u - 1) + 1 := by
      rw [hbSY2, if_pos hone]
      omega
    obtain ⟨t3, hrunsB, hinv3, hst3, hd3⟩ :=
      runs_bits payload u p tone 1 (u - 1) 7 SY hinvSY hstSY hbu
        (by omega) (by omega) hdSY
    obtain ⟨t4, hrunsK, hst4⟩ :=
      runs_block payload u p tone hu1 hu8 hp (payload.length - 1) 1 t3
        (by omega) (by omega) hinv3 hst3 hd3
    have hz : payload.length - 1 = 0 := by omega
    have hrunsKb : Runs t3 1 1 t4 :=
      hrunsK.cast (by rw [if_pos hz]) (by rw [if_pos hz])
    exact ⟨t4,
      (hrunsP.trans (Runs.step hnsS htickS2 (hrunsB.trans hrunsKb))).cast
        (by omega) (by omega),
      hst4⟩
  · have hb8 : SY.bits_to_process_in_byte = 7 + 1 := by
      rw [hbSY2, if_neg hone]
    obtain ⟨t3, hrunsB, hinv3, hst3, hd3⟩ :=
      runs_bits payload u p tone 1 7 7 SY hinvSY hstSY hb8
        (by omega) (by omega) hdSY
    obtain ⟨t4, hrunsK, hst4⟩ :=
      runs_block payload u p tone hu1 hu8 hp (payload.length - 1) 1 t3
        (by omega) (by omega) hinv3 hst3 hd3
    have hz : ¬ payload.length - 1 = 0 := by omega
    have hrunsKb : Runs t3 (16 * (payload.length - 1 - 1) + 2 * u + 1)
        (16 * (payload.length - 1 - 1) + 2 * u + 1) t4 :=
      hrunsK.cast (if_neg hz) (if_neg hz)
    exact ⟨t4,
      (hrunsP.trans (Runs.step hnsS htickS2 (hrunsB.trans hrunsKb))).cast
        (by omega) (by omega),
      hst4⟩

/-- **C4.** A StandardSpeedData block of size ≥ 1, played from its `Process`
dispatch to completion, emits exactly
`pulses + 2 + 2*(8*(size-1) + used_bits_in_last_byte)` output-bit edges before
the machine comes to rest in `Play` for the pause, where `pulses` is 8063 when
the first payload byte is `0x00` and 3223 otherwise: the count covers the
pilot pulses, the two sync half-pulse edges... precisely, the pilot edges, the
sync edge, the two edges of every data half-bit, and the edge closing the last
data pulse as the pause begins. -/
theorem c4_standard_block_edge_count (payload : List Nat) (u p : Nat)
    (tone : Option Nat) (t : Tzx) (extra : Nat)
    (hinv : StdBlockLoaded payload u p tone t 0)
    (hst : t.state = TapeState.Process)
    (hid : t.current_block_id = some TzxBlockId.StandardSpeedData)
    (hlen : payload ≠ [])
    (hu1 : 1 ≤ u) (hu8 : u ≤ 8) (hp : 1 ≤ p) (hd : 0 ≤ t.delay) :
    Tzx.countBlockEdges
        ((if listGet payload 0 = 0 then 8063 else 3223) + 2 +
          2 * (8 * (payload.length - 1) + u) + 2 + extra) t =
      Except.ok
        ((if listGet payload 0 = 0 then 8063 else 3223) + 2 +
          2 * (8 * (payload.length - 1) + u)) := by
  have hlen0 : 0 < payload.length := List.length_pos.mpr hlen
  have hns : ¬(t.state = TapeState.Play ∨ t.state = TapeState.Stop) := by
    rw [hst]; simp
  obtain ⟨t1, htick0, hinv1, hst1, hd1, hbits1, hcby1⟩ :=
    tick_process payload u p tone t hinv hst hid hd hlen0
  have hP1 : 1 ≤ (if listGet payload 0 = 0 then 8063 else 3223) := by
    split <;> norm_num
  obtain ⟨t4, hrunsAll, hst4⟩ :=
    c4_aux payload u p (if listGet payload 0 = 0 then 8063 else 3223) tone t1
      hinv1 hst1 hP1 hd1 hbits1 hu1 hu8 hp hlen0
  have hAll := Runs.step hns htick0 hrunsAll
  have hmain := hAll.count (extra + 1) 0 (countBlockEdges_play t4 hst4 extra)
  rw [Nat.add_zero] at hmain
  convert hmain using 2 <;> omega

theorem c4_standard_block_edge_count_witness :
    Tzx.countBlockEdges 3243 c4Engine = Except.ok 3241 := by
  have h := c4_standard_block_edge_count [0xFF] 8 1000 none c4Engine 0
    ⟨rfl, rfl, rfl, rfl, by decide, by decide, ?_, by decide⟩
    rfl rfl (by decide) (by decide) (by decide) (by decide) (by decide)
  · simpa using h
  · intro k h1 h2
    have hk : k = 0 := by
      simp only [List.length_singleton] at h1
      omega
    subst hk
    decide

end TzxSpec
